import Mathlib

/-!
Verification of the RNodeTHV4 boundary-node firmware's framed TCP stream
transport (`src/TcpInterface.h`) and cache-store file interface
(`src/unnamed/part_002`, `FileSystem`).

The C++ code is shallowly embedded: machine integers become `Nat`/`Int`
(the 32-bit `millis()` wraparound subtraction is modelled explicitly by
`elapsed32`), byte buffers become `List Nat`, the fixed client-slot array
becomes a `List TcpClient` of length `TCP_IF_MAX_CLIENTS`, and socket /
filesystem effects (connect results, bytes available, bytes actually
written or read) are supplied as explicit environment records.  Serial
diagnostics are modelled as event values (`DeframeEvent`, `SockAction`)
where a claim refers to them.  The RNS `Transport` collaborator is not
part of this repository; `handle_incoming` is therefore modelled as
handing the deframed payload to an abstract callback (instantiated with
pure collection, or with `send_outgoing` when studying the synchronous
rebroadcast path that the echo-suppression logic exists for).
-/

namespace RNodeTHV4

/-! ### Configuration constants (src/TcpInterface.h lines 26-44) -/

def TCP_IF_MAX_CLIENTS : Nat := 8
def TCP_IF_HW_MTU : Nat := 1064
def TCP_IF_READ_TIMEOUT : Nat := 120000
def TCP_IF_RECONNECT_MIN : Nat := 10000
def TCP_IF_RECONNECT_MAX : Nat := 120000
def TCP_IF_KEEPALIVE_INTERVAL : Nat := 30000

def HDLC_FLAG : Nat := 0x7E
def HDLC_ESC : Nat := 0x7D
def HDLC_ESC_MASK : Nat := 0x20

/-- `uint32_t` wraparound difference `now - last` as computed by C on
`millis()` timestamps. -/
def elapsed32 (now last : Nat) : Nat :=
  ((now % 2 ^ 32) + 2 ^ 32 - (last % 2 ^ 32)) % 2 ^ 32

/-! ### Per-connection state (struct TcpClient, lines 53-63)

`rxbuf` holds the `rxlen` buffered bytes, so `rxlen` is `rxbuf.length`.
`connected` mirrors the result of `client.connected()` on the underlying
socket: set by `_accept_client`/`_connect_client`, cleared by
`_cleanup_client`'s `client.stop()`. -/

structure TcpClient where
  connected : Bool
  last_activity : Nat
  active : Bool
  in_frame : Bool
  escape : Bool
  truncated : Bool
  rxbuf : List Nat
deriving DecidableEq, Repr

/-- The slot contents established by the constructor (lines 103-110). -/
def init_client : TcpClient :=
  { connected := false, last_activity := 0, active := false,
    in_frame := false, escape := false, truncated := false, rxbuf := [] }

/-- The slot contents installed on a fresh connection
(`_accept_client` lines 385-393 / `_connect_client` lines 443-449). -/
def new_tcp_client (now : Nat) : TcpClient :=
  { connected := true, last_activity := now, active := true,
    in_frame := false, escape := false, truncated := false, rxbuf := [] }

/-! ### HDLC byte-level deframing (`_hdlc_deframe`, lines 318-366) -/

/-- Observable outcome of one deframing step: a frame delivered to
`handle_incoming`, or the oversized-frame drop diagnostic
(`[TcpIF] DROPPED oversized frame ... buffered %u`). -/
inductive DeframeEvent where
  | deliver (data : List Nat)
  | drop_oversized (buffered : Nat)
deriving DecidableEq, Repr

/-- One byte through `_hdlc_deframe`, acting on the per-connection state
only (the interface-level bookkeeping `_last_rx_client_idx` is handled by
`hdlc_deframe_rt` below). -/
def hdlc_deframe (c : TcpClient) (byte : Nat) : TcpClient × Option DeframeEvent :=
  if byte = HDLC_FLAG then
    if c.in_frame ∧ 0 < c.rxbuf.length then
      if c.truncated then
        -- v1.0.12: drop the whole frame instead of delivering it truncated
        ({ c with in_frame := true, escape := false, truncated := false, rxbuf := [] },
         some (.drop_oversized c.rxbuf.length))
      else
        -- end of frame: deliver to RNS
        ({ c with in_frame := true, escape := false, truncated := false, rxbuf := [] },
         some (.deliver c.rxbuf))
    else
      ({ c with in_frame := true, escape := false, truncated := false, rxbuf := [] }, none)
  else if c.in_frame then
    if c.escape then
      let b := byte ^^^ HDLC_ESC_MASK
      if c.rxbuf.length < TCP_IF_HW_MTU then
        ({ c with escape := false, rxbuf := c.rxbuf ++ [b] }, none)
      else
        ({ c with escape := false, truncated := true }, none)
    else if byte = HDLC_ESC then
      ({ c with escape := true }, none)
    else
      if c.rxbuf.length < TCP_IF_HW_MTU then
        ({ c with rxbuf := c.rxbuf ++ [byte] }, none)
      else
        ({ c with truncated := true }, none)
  else
    (c, none)

/-- Feed a byte sequence through `_hdlc_deframe`, collecting the events. -/
def hdlc_deframe_list (c : TcpClient) : List Nat → TcpClient × List DeframeEvent
  | [] => (c, [])
  | b :: rest =>
    let s := hdlc_deframe c b
    let r := hdlc_deframe_list s.1 rest
    (r.1, s.2.toList ++ r.2)

/-- The frames a deframing event sequence hands to `handle_incoming`. -/
def delivered_frames (evs : List DeframeEvent) : List (List Nat) :=
  evs.filterMap (fun e => match e with | .deliver d => some d | _ => none)

/-! ### HDLC framing (`send_outgoing`, lines 238-252) -/

/-- Byte-stuffing of a single payload byte (lines 243-249). -/
def stuff_byte (b : Nat) : List Nat :=
  if b = HDLC_FLAG ∨ b = HDLC_ESC then [HDLC_ESC, b ^^^ HDLC_ESC_MASK] else [b]

/-- Byte-stuffing of a whole payload (no buffer bound). -/
def stuff_bytes : List Nat → List Nat
  | [] => []
  | b :: rest => stuff_byte b ++ stuff_bytes rest

/-- The framing loop of `send_outgoing`: `frame_buf` has room for
`TCP_IF_HW_MTU * 2 + 4` bytes and the loop breaks once
`flen >= sizeof(frame_buf) - 4` (line 250). `acc` starts at the already
written leading flag. -/
def frame_loop (acc : List Nat) : List Nat → List Nat
  | [] => acc
  | b :: rest =>
    let acc' := acc ++ stuff_byte b
    if TCP_IF_HW_MTU * 2 + 4 - 4 ≤ acc'.length then acc'
    else frame_loop acc' rest

/-- The full wire frame written by `send_outgoing`: leading flag, stuffed
payload (with the safety break), trailing flag. -/
def hdlc_frame (data : List Nat) : List Nat :=
  frame_loop [HDLC_FLAG] data ++ [HDLC_FLAG]

/-! ### Cache-store file interface (`FileSystem`, src/unnamed/part_002)

The backing store is an association list from (abstract) paths to byte
contents.  The device-level outcomes that `File::write`/`readBytes` can
produce (failed open, short write, short read) are explicit parameters. -/

def fs_lookup : List (Nat × List Nat) → Nat → Option (List Nat)
  | [], _ => none
  | e :: rest, p => if e.1 = p then some e.2 else fs_lookup rest p

def fs_exists (fs : List (Nat × List Nat)) (p : Nat) : Bool :=
  (fs_lookup fs p).isSome

def fs_remove (fs : List (Nat × List Nat)) (p : Nat) : List (Nat × List Nat) :=
  fs.filter (fun e => e.1 ≠ p)

/-- `FileSystem::write_file` (part_002 lines 299-328): remove any existing
file at the path, then (if the open succeeds) write the data, the device
accepting `dev_wrote` of the requested bytes; returns the new store and
the byte count reported to the caller. -/
def write_file (fs : List (Nat × List Nat)) (p : Nat) (data : List Nat)
    (open_ok : Bool) (dev_wrote : Nat) : List (Nat × List Nat) × Nat :=
  let fs1 := if fs_exists fs p then fs_remove fs p else fs
  if open_ok then
    let wrote := min dev_wrote data.length
    ((p, data.take wrote) :: fs1, wrote)
  else
    (fs1, 0)

/-- `FileSystem::read_file` (part_002 lines 273-297): on a successful open,
resize the caller's buffer to the file size, read up to `dev_read` bytes,
and on a short read resize the buffer down to the bytes actually read; on
a failed open return 0 leaving the caller's buffer `data0` untouched. -/
def read_file (fs : List (Nat × List Nat)) (p : Nat) (data0 : List Nat)
    (dev_read : Nat) : Nat × List Nat :=
  match fs_lookup fs p with
  | some c =>
    let size := c.length
    let rd := min dev_read size
    (rd, c.take rd)
  | none => (0, data0)

/-! ### Link-MTU clamping on forwarded LINKREQUESTs -/

/-- The MTU-related capability flags of an RNS interface as consulted by
the LINKREQUEST forwarding paths. -/
structure InterfaceProps where
  HW_MTU : Nat
  FIXED_MTU : Bool
  AUTOCONFIGURE_MTU : Bool
deriving DecidableEq, Repr

/-- The values set by `TcpInterface`'s constructor (src/TcpInterface.h
lines 87-90): `_HW_MTU = TCP_IF_HW_MTU` and (v1.0.12) `_FIXED_MTU = true`;
`_AUTOCONFIGURE_MTU` keeps its default `false`. -/
def tcp_interface_props : InterfaceProps :=
  { HW_MTU := TCP_IF_HW_MTU, FIXED_MTU := true, AUTOCONFIGURE_MTU := false }

/-- What happens to the trailing MTU-signalling bytes of a forwarded
link-establishment request. -/
inductive LrMtuAction where
  | unchanged
  | strip
  | rewrite (mtu : Nat)
deriving DecidableEq, Repr

/-- Modelled from the spec: the LINKREQUEST MTU clamping in the Transport
router is not among the source files under src/ (it lives in the
microReticulum `Transport.cpp`); this follows the spec's rule — "If either
the inbound or outbound interface declares FIXED_MTU and its HW_MTU is
smaller than the proposed value, rewrite the signalling bytes to the
minimum of the two MTUs before forwarding. If the outbound interface
declares no usable MTU, strip the signalling bytes entirely." — and the
fix quoted verbatim in src/MICRORETICULUM_BUGS.md (Bug 8a).  `path_mtu` is
the value decoded from the packet's signalling bytes (0 when absent),
`ph_mtu` the receiving interface's `HW_MTU`, `nh` the outbound
interface. -/
def clamp_lr_mtu (path_mtu : Nat) (ph_mtu : Nat) (nh : InterfaceProps) : LrMtuAction :=
  if 0 < path_mtu then
    let nh_mtu := nh.HW_MTU
    if nh_mtu = 0 then .strip
    else if nh.AUTOCONFIGURE_MTU = false ∧ nh.FIXED_MTU = false then .strip
    else if nh_mtu < path_mtu ∨ (0 < ph_mtu ∧ ph_mtu < path_mtu) then
      .rewrite (min nh_mtu (if 0 < ph_mtu then ph_mtu else nh_mtu))
    else .unchanged
  else .unchanged

/-! ### Interface state (TcpInterface member variables, lines 469-485) -/

inductive TcpIfMode where
  | server
  | client
deriving DecidableEq, Repr

/-- `TcpInterface`'s mutable state.  `clients` is the fixed slot array
`_clients[TCP_IF_MAX_CLIENTS]`; `server` tracks whether the `WiFiServer`
object exists; `target_host` is the C string as a byte list (only its
emptiness is consulted); `num_clients` is the C `int _num_clients` and
`last_rx_client_idx` the C `int _last_rx_client_idx` (-1 when no inbound
frame is being delivered). -/
structure TcpState where
  mode : TcpIfMode
  clients : List TcpClient
  num_clients : Int
  last_reconnect : Nat
  last_keepalive : Nat
  reconnect_interval : Nat
  read_timeout : Nat
  resolved_ip : Nat
  consecutive_failures : Nat
  started : Bool
  last_rx_client_idx : Int
  target_host : List Nat
  server : Bool
deriving DecidableEq, Repr

/-- Replace the fields of slot `idx` in place (a C++ reference write into
`_clients[idx]`). -/
def update_client (st : TcpState) (idx : Nat) (f : TcpClient → TcpClient) : TcpState :=
  match st.clients.get? idx with
  | some c => { st with clients := st.clients.set idx (f c) }
  | none => st

/-- Why `_cleanup_client` was invoked (the `reason` diagnostic string). -/
inductive CleanupReason where
  | disconnected
  | read_timeout
  | write_failed
deriving DecidableEq, Repr

/-- Observable socket teardown.  `rst_close` is the `SO_LINGER {1, 0}` +
`stop()` sequence (forces a TCP RST, freeing lwIP buffers immediately);
`graceful_close` (a plain FIN teardown) is what the code deliberately does
NOT use. -/
inductive SockAction where
  | rst_close (idx : Nat) (reason : CleanupReason)
  | graceful_close (idx : Nat) (reason : CleanupReason)
deriving DecidableEq, Repr

/-- The slot contents after `_cleanup_client` (lines 302-308): socket
stopped, slot inactive, deframe state cleared (`last_activity` is left
as-is). -/
def cleaned (c : TcpClient) : TcpClient :=
  { c with connected := false, active := false,
           in_frame := false, escape := false, truncated := false, rxbuf := [] }

/-- `_cleanup_client` (lines 285-315): no-op on an inactive slot; else
abrupt-reset the socket, clear the slot and decrement `_num_clients`. -/
def cleanup_client (st : TcpState) (idx : Nat) (reason : CleanupReason) :
    TcpState × List SockAction :=
  match st.clients.get? idx with
  | none => (st, [])
  | some c =>
    if c.active = false then (st, [])
    else
      ({ st with clients := st.clients.set idx (cleaned c),
                 num_clients := st.num_clients - 1 },
       [SockAction.rst_close idx reason])

/-- The slot scan of `_accept_client` (lines 371-399): index of the first
slot whose `active` flag is clear. -/
def first_inactive : List TcpClient → Option Nat
  | [] => none
  | c :: rest =>
    if c.active = false then some 0
    else (first_inactive rest).map (· + 1)

/-- `_accept_client` (lines 369-403): install the new connection in the
first free slot; with no free slot, reject (stop the new socket) leaving
the state untouched.  Returns whether the connection was accepted. -/
def accept_client (st : TcpState) (now : Nat) : TcpState × Bool :=
  match first_inactive st.clients with
  | some i =>
    ({ st with clients := st.clients.set i (new_tcp_client now),
               num_clients := st.num_clients + 1 }, true)
  | none => (st, false)

/-! ### Client-mode outbound connection (`_connect_client`, lines 406-467) -/

/-- Environment for one `_connect_client` call: the outcome of
`client.connect` on the cached address, of `WiFi.hostByName`, and of
`client.connect` on a freshly resolved address; `now` is `millis()`. -/
structure ConnectEnv where
  cached_connect_ok : Bool
  dns_ok : Bool
  dns_ip : Nat
  fresh_connect_ok : Bool
  now : Nat

/-- What a `_connect_client` call did: whether it attempted the cached
address, whether it performed a DNS lookup, whether it ended connected. -/
structure ConnectTrace where
  tried_cached : Bool
  did_dns : Bool
  connected : Bool
deriving DecidableEq, Repr

/-- The `if (connected)` success tail of `_connect_client`
(lines 440-454): install the connection in slot 0, reset the
consecutive-failure counter and the backoff interval. -/
def connect_success (st : TcpState) (now : Nat) : TcpState :=
  { st with clients := st.clients.set 0 (new_tcp_client now),
            num_clients := 1,
            consecutive_failures := 0,
            reconnect_interval := TCP_IF_RECONNECT_MIN,
            last_reconnect := now }

/-- The failure tail of `_connect_client` (lines 455-466): count the
failure and double the backoff interval, capped at
`TCP_IF_RECONNECT_MAX`. -/
def connect_failure (st : TcpState) (now : Nat) : TcpState :=
  -- Exponential backoff: 10s -> 20s -> 40s -> 80s -> 120s (max)
  let ri := st.reconnect_interval * 2
  { st with consecutive_failures := st.consecutive_failures + 1,
            reconnect_interval :=
              if TCP_IF_RECONNECT_MAX < ri then TCP_IF_RECONNECT_MAX else ri,
            last_reconnect := now }

/-- `_connect_client` (lines 406-467), with each path of the C control
flow (mutable `connected` flag, cached-IP phase, DNS phase) written as an
explicit branch. -/
def connect_client (st : TcpState) (env : ConnectEnv) : TcpState × ConnectTrace :=
  if st.target_host = [] then
    -- "No target host configured" — early return, nothing touched
    (st, ⟨false, false, false⟩)
  else if st.resolved_ip ≠ 0 then
    -- Try cached IP first (avoids DNS lookup on every reconnect)
    if env.cached_connect_ok then
      (connect_success st env.now, ⟨true, false, true⟩)
    else
      -- Cached IP failed — clear cache and retry with DNS
      if env.dns_ok then
        if env.fresh_connect_ok then
          (connect_success { st with resolved_ip := env.dns_ip } env.now,
           ⟨true, true, true⟩)
        else
          (connect_failure { st with resolved_ip := env.dns_ip } env.now,
           ⟨true, true, false⟩)
      else
        (connect_failure { st with resolved_ip := 0 } env.now, ⟨true, true, false⟩)
  else
    if env.dns_ok then
      if env.fresh_connect_ok then
        (connect_success { st with resolved_ip := env.dns_ip } env.now,
         ⟨false, true, true⟩)
      else
        (connect_failure { st with resolved_ip := env.dns_ip } env.now,
         ⟨false, true, false⟩)
    else
      (connect_failure st env.now, ⟨false, true, false⟩)

/-! ### Outgoing packets (`send_outgoing`, lines 234-275) -/

/-- The observable effects of one `send_outgoing` call: the `(slot, bytes)`
write attempts, the slots that reported a partial write, and the socket
teardowns of slots whose write failed. -/
structure SendOut where
  writes : List (Nat × List Nat)
  partials : List Nat
  actions : List SockAction
deriving DecidableEq, Repr

/-- The per-slot write loop of `send_outgoing` (lines 258-270): skip the
slot the packet was received from, write the frame to every other active
connected slot, and tear down (abrupt reset) any slot whose write
returned 0.  `wr i` is the byte count `client.write` reports for slot
`i`. -/
def send_clients (wr : Nat → Nat) (frame : List Nat) :
    TcpState → List Nat → TcpState × SendOut
  | st, [] => (st, ⟨[], [], []⟩)
  | st, i :: rest =>
    if (i : Int) = st.last_rx_client_idx then
      -- Don't echo back to sender
      send_clients wr frame st rest
    else
      match st.clients.get? i with
      | none => send_clients wr frame st rest
      | some c =>
        if c.active && c.connected then
          let written := wr i
          let s1 :=
            if written = 0 then cleanup_client st i .write_failed
            else (st, [])
          let r := send_clients wr frame s1.1 rest
          (r.1,
           ⟨(i, frame) :: r.2.writes,
            (if written ≠ 0 ∧ written < frame.length then [i] else []) ++ r.2.partials,
            s1.2 ++ r.2.actions⟩)
        else
          send_clients wr frame st rest

def send_outgoing (st : TcpState) (wr : Nat → Nat) (data : List Nat) :
    TcpState × SendOut :=
  if st.started = false ∨ st.num_clients = 0 then (st, ⟨[], [], []⟩)
  else
    send_clients wr (hdlc_frame data) st (List.range TCP_IF_MAX_CLIENTS)

/-! ### Interface-level deframing and the main loop -/

/-- `_hdlc_deframe` at the interface level (lines 318-366): on delivering a
frame from slot `idx`, `_last_rx_client_idx` is set to `idx` for the
duration of the synchronous `handle_incoming` call chain (Transport may
re-enter `send_outgoing`), then reset to -1 and the slot's deframe state
cleared.  `cb` abstracts that call chain (RNS Transport is outside this
repository). -/
def hdlc_deframe_rt {α : Type} (cb : TcpState → List Nat → TcpState × α)
    (st : TcpState) (idx : Nat) (byte : Nat) : TcpState × Option α :=
  match st.clients.get? idx with
  | none => (st, none)
  | some c =>
    match hdlc_deframe c byte with
    | (_, some (.deliver d)) =>
      let st1 := { st with last_rx_client_idx := (idx : Int) }
      let s2 := cb st1 d
      let st3 := { s2.1 with last_rx_client_idx := -1 }
      (update_client st3 idx (fun c2 =>
        { c2 with in_frame := true, escape := false, truncated := false, rxbuf := [] }),
       some s2.2)
    | (c', _) => ({ st with clients := st.clients.set idx c' }, none)

/-- The read loop of `loop` (lines 218-222): consume each available byte,
refreshing `last_activity` and deframing; deliveries are handed to
Transport (collected here). -/
def read_client_bytes (st : TcpState) (i : Nat) (now : Nat) :
    List Nat → TcpState × List (List Nat)
  | [] => (st, [])
  | b :: rest =>
    let st1 := update_client st i (fun c => { c with last_activity := now })
    let s2 := hdlc_deframe_rt (fun s d => (s, d)) st1 i b
    let r := read_client_bytes s2.1 i now rest
    (r.1, s2.2.toList ++ r.2)

/-- Environment for one `loop` call: `millis()`, whether `_server` has a
pending connection, the WiFi status, the bytes available per slot, and
the `_connect_client` outcomes should a reconnect be attempted. -/
structure LoopEnv where
  now : Nat
  server_available : Bool
  wifi_connected : Bool
  incoming : Nat → List Nat
  cached_connect_ok : Bool
  dns_ok : Bool
  dns_ip : Nat
  fresh_connect_ok : Bool

def loop_connect_env (env : LoopEnv) : ConnectEnv :=
  ⟨env.cached_connect_ok, env.dns_ok, env.dns_ip, env.fresh_connect_ok, env.now⟩

/-- Whether slot `i` is both active and connected (`_clients[i].active &&
_clients[i].client.connected()`). -/
def slot_active_connected (st : TcpState) (i : Nat) : Bool :=
  match st.clients.get? i with
  | some c => c.active && c.connected
  | none => false

/-- The per-client section of `loop` (lines 201-223) for one slot. -/
def process_client (env : LoopEnv) (st : TcpState) (i : Nat) :
    TcpState × List SockAction × List (Nat × List Nat) :=
  match st.clients.get? i with
  | none => (st, [], [])
  | some c =>
    if c.active = false then (st, [], [])
    else if c.connected = false then
      let r := cleanup_client st i .disconnected
      (r.1, r.2, [])
    else if 0 < st.read_timeout ∧ 0 < c.last_activity ∧
            st.read_timeout < elapsed32 env.now c.last_activity then
      let r := cleanup_client st i .read_timeout
      (r.1, r.2, [])
    else
      let r := read_client_bytes st i env.now (env.incoming i)
      (r.1, [], r.2.map (fun d => (i, d)))

def process_clients (env : LoopEnv) :
    TcpState → List Nat → TcpState × List SockAction × List (Nat × List Nat)
  | st, [] => (st, [], [])
  | st, i :: rest =>
    let r1 := process_client env st i
    let r2 := process_clients env r1.1 rest
    (r2.1, r1.2.1 ++ r2.2.1, r1.2.2 ++ r2.2.2)

/-- The observable effects of one `loop` call. -/
structure LoopOut where
  accepted : Option Bool
  connect_trace : Option ConnectTrace
  keepalives : List (Nat × List Nat)
  actions : List SockAction
  deliveries : List (Nat × List Nat)
deriving Repr

/-- The accept stage of `loop` (lines 164-170): in server mode, install a
pending connection. -/
def loop_accept (st : TcpState) (env : LoopEnv) : TcpState × Option Bool :=
  if st.mode = TcpIfMode.server ∧ st.server ∧ env.server_available then
    let a := accept_client st env.now
    (a.1, some a.2)
  else (st, none)

/-- The client-mode reconnect stage of `loop` (lines 172-183): when no
connection is up and the backoff interval has elapsed, attempt a
reconnect — unless WiFi is down, in which case only the timer is
updated. -/
def loop_reconnect (st : TcpState) (env : LoopEnv) : TcpState × Option ConnectTrace :=
  if st.mode = TcpIfMode.client ∧ st.num_clients = 0 ∧
     st.reconnect_interval ≤ elapsed32 env.now st.last_reconnect then
    if env.wifi_connected then
      let r := connect_client st (loop_connect_env env)
      (r.1, some r.2)
    else
      -- WiFi not connected — skip TCP attempt, just update timer
      ({ st with last_reconnect := env.now }, none)
  else (st, none)

/-- The keepalive stage of `loop` (lines 185-198): while any connection is
up, every `TCP_IF_KEEPALIVE_INTERVAL` ms write the empty HDLC frame
`{HDLC_FLAG, HDLC_FLAG}` to every active connected slot. -/
def loop_keepalive (st : TcpState) (env : LoopEnv) : TcpState × List (Nat × List Nat) :=
  if 0 < st.num_clients ∧
     TCP_IF_KEEPALIVE_INTERVAL ≤ elapsed32 env.now st.last_keepalive then
    ({ st with last_keepalive := env.now },
     ((List.range TCP_IF_MAX_CLIENTS).filter
        (fun i => slot_active_connected st i)).map
      (fun i => (i, [HDLC_FLAG, HDLC_FLAG])))
  else (st, [])

/-- `TcpInterface::loop` (lines 161-224): accept pending server-mode
connections, client-mode reconnection with backoff (skipped while WiFi is
down), periodic empty-frame keepalives to every active connected slot,
then per-slot disconnect/read-timeout checks and deframing of the
available bytes. -/
def loop (st : TcpState) (env : LoopEnv) : TcpState × LoopOut :=
  if st.started = false then (st, ⟨none, none, [], [], []⟩)
  else
    let s1 := loop_accept st env
    let s2 := loop_reconnect s1.1 env
    let s3 := loop_keepalive s2.1 env
    let s4 := process_clients env s3.1 (List.range TCP_IF_MAX_CLIENTS)
    (s4.1, ⟨s1.2, s2.2, s3.2, s4.2.1, s4.2.2⟩)

/-! ### Lifecycle (`start`/`stop`, lines 118-158) -/

def start (st : TcpState) (env : ConnectEnv) : TcpState :=
  if st.started then st
  else if st.mode = TcpIfMode.server then
    { st with server := true, started := true }
  else
    (connect_client { st with started := true } env).1

/-- `stop` (lines 135-158): abrupt-reset every active slot's socket, drop
the server, clear `_started` and `_num_clients`. -/
def stop (st : TcpState) : TcpState :=
  { st with
    clients := st.clients.map
      (fun c => if c.active then { c with connected := false, active := false } else c),
    server := false, started := false, num_clients := 0 }

/-- The connection-count invariant: the slot array has its fixed size and
`_num_clients` counts exactly the active slots. -/
def clients_inv (st : TcpState) : Prop :=
  st.clients.length = TCP_IF_MAX_CLIENTS ∧
  st.num_clients = (st.clients.countP (fun c => c.active) : Int)

/-! ### Deframing step lemmas -/

theorem hdlc_deframe_flag_deliver (c : TcpClient) (hin : c.in_frame = true)
    (hne : c.rxbuf ≠ []) (htr : c.truncated = false) :
    hdlc_deframe c HDLC_FLAG =
      ({ c with in_frame := true, escape := false, truncated := false, rxbuf := [] },
       some (.deliver c.rxbuf)) := by
  simp [hdlc_deframe, hin, htr, List.length_pos.mpr hne]

theorem hdlc_deframe_flag_drop (c : TcpClient) (hin : c.in_frame = true)
    (hne : c.rxbuf ≠ []) (htr : c.truncated = true) :
    hdlc_deframe c HDLC_FLAG =
      ({ c with in_frame := true, escape := false, truncated := false, rxbuf := [] },
       some (.drop_oversized c.rxbuf.length)) := by
  simp [hdlc_deframe, hin, htr, List.length_pos.mpr hne]

theorem hdlc_deframe_flag_idle (c : TcpClient) (h : c.in_frame = false ∨ c.rxbuf = []) :
    hdlc_deframe c HDLC_FLAG =
      ({ c with in_frame := true, escape := false, truncated := false, rxbuf := [] },
       none) := by
  rcases h with h | h <;> simp [hdlc_deframe, h]

theorem hdlc_deframe_esc (c : TcpClient) (hin : c.in_frame = true)
    (hesc : c.escape = false) :
    hdlc_deframe c HDLC_ESC = ({ c with escape := true }, none) := by
  simp [hdlc_deframe, hin, hesc, HDLC_ESC, HDLC_FLAG]

theorem hdlc_deframe_escaped (c : TcpClient) (x : Nat) (hin : c.in_frame = true)
    (hesc : c.escape = true) (hx : x ≠ HDLC_FLAG) :
    hdlc_deframe c x =
      if c.rxbuf.length < TCP_IF_HW_MTU then
        ({ c with escape := false, rxbuf := c.rxbuf ++ [x ^^^ HDLC_ESC_MASK] }, none)
      else
        ({ c with escape := false, truncated := true }, none) := by
  simp [hdlc_deframe, hin, hesc, hx]

theorem hdlc_deframe_plain (c : TcpClient) (x : Nat) (hin : c.in_frame = true)
    (hesc : c.escape = false) (hxf : x ≠ HDLC_FLAG) (hxe : x ≠ HDLC_ESC) :
    hdlc_deframe c x =
      if c.rxbuf.length < TCP_IF_HW_MTU then
        ({ c with rxbuf := c.rxbuf ++ [x] }, none)
      else
        ({ c with truncated := true }, none) := by
  simp [hdlc_deframe, hin, hesc, hxf, hxe]

theorem hdlc_deframe_list_cons (c : TcpClient) (b : Nat) (rest : List Nat) :
    hdlc_deframe_list c (b :: rest) =
      ((hdlc_deframe_list (hdlc_deframe c b).1 rest).1,
       (hdlc_deframe c b).2.toList ++ (hdlc_deframe_list (hdlc_deframe c b).1 rest).2) :=
  rfl

theorem hdlc_deframe_list_append (c : TcpClient) (xs ys : List Nat) :
    hdlc_deframe_list c (xs ++ ys) =
      ((hdlc_deframe_list (hdlc_deframe_list c xs).1 ys).1,
       (hdlc_deframe_list c xs).2 ++
         (hdlc_deframe_list (hdlc_deframe_list c xs).1 ys).2) := by
  induction xs generalizing c with
  | nil => simp [hdlc_deframe_list]
  | cons b rest ih => simp [hdlc_deframe_list, ih]

/-- Feeding the stuffed encoding of a payload `p` into a mid-frame
deframer appends `p` to the receive buffer as far as it fits, sets the
`truncated` mark exactly when the buffer would overflow, and produces no
events. -/
theorem deframe_stuffed (p : List Nat) : ∀ c : TcpClient, c.in_frame = true →
    c.escape = false → c.rxbuf.length ≤ TCP_IF_HW_MTU →
    hdlc_deframe_list c (stuff_bytes p) =
      ({ c with
         truncated := c.truncated || decide (TCP_IF_HW_MTU < c.rxbuf.length + p.length),
         rxbuf := c.rxbuf ++ p.take (TCP_IF_HW_MTU - c.rxbuf.length) }, []) := by
  induction p with
  | nil =>
    intro c hin hesc hlen
    obtain ⟨conn, la, act, inf, esc, tr, buf⟩ := c
    dsimp only at hin hesc hlen ⊢
    subst hin; subst hesc
    have hd : ¬ (TCP_IF_HW_MTU < buf.length + ([] : List Nat).length) := by
      simp only [List.length_nil, Nat.add_zero]; omega
    simp only [stuff_bytes, hdlc_deframe_list, List.take_nil, List.append_nil,
      decide_eq_false hd, Bool.or_false]
  | cons b rest ih =>
    intro c hin hesc hlen
    obtain ⟨conn, la, act, inf, esc, tr, buf⟩ := c
    dsimp only at hin hesc hlen ⊢
    subst hin; subst hesc
    by_cases hb : b = HDLC_FLAG ∨ b = HDLC_ESC
    · -- stuffed byte: ESC then b ^^^ MASK on the wire
      have hxne : b ^^^ HDLC_ESC_MASK ≠ HDLC_FLAG := by
        rcases hb with hb | hb <;> subst hb <;> decide
      have hstuff : stuff_bytes (b :: rest) =
          HDLC_ESC :: (b ^^^ HDLC_ESC_MASK) :: stuff_bytes rest := by
        simp [stuff_bytes, stuff_byte, hb]
      rw [hstuff, hdlc_deframe_list_cons,
          hdlc_deframe_esc ⟨conn, la, act, true, false, tr, buf⟩ rfl rfl]
      dsimp only
      rw [hdlc_deframe_list_cons,
          hdlc_deframe_escaped ⟨conn, la, act, true, true, tr, buf⟩ _ rfl rfl hxne]
      dsimp only
      rw [Nat.xor_cancel_right]
      by_cases hlt : buf.length < TCP_IF_HW_MTU
      · rw [if_pos hlt]
        dsimp only
        rw [ih ⟨conn, la, act, true, false, tr, buf ++ [b]⟩ rfl rfl
              (by dsimp only; simp only [List.length_append, List.length_cons,
                    List.length_nil]; omega)]
        dsimp only
        simp only [Prod.mk.injEq, TcpClient.mk.injEq]
        refine ⟨⟨trivial, trivial, trivial, trivial, trivial, ?_, ?_⟩, by simp⟩
        · congr 1
          exact decide_eq_decide.mpr
            (by simp only [List.length_append, List.length_cons, List.length_nil]; omega)
        · rw [List.append_assoc, List.singleton_append]
          congr 1
          rw [← List.take_succ_cons]
          congr 1
          simp only [List.length_append, List.length_cons, List.length_nil]
          omega
      · rw [if_neg hlt]
        dsimp only
        rw [ih ⟨conn, la, act, true, false, true, buf⟩ rfl rfl (by dsimp only; omega)]
        dsimp only
        have heq : buf.length = TCP_IF_HW_MTU := by omega
        have h3 : TCP_IF_HW_MTU < buf.length + (rest.length + 1) := by omega
        simp [heq, h3]
    · push_neg at hb
      have hstuff : stuff_bytes (b :: rest) = b :: stuff_bytes rest := by
        simp [stuff_bytes, stuff_byte, hb.1, hb.2]
      rw [hstuff, hdlc_deframe_list_cons,
          hdlc_deframe_plain ⟨conn, la, act, true, false, tr, buf⟩ b rfl rfl hb.1 hb.2]
      dsimp only
      by_cases hlt : buf.length < TCP_IF_HW_MTU
      · rw [if_pos hlt]
        dsimp only
        rw [ih ⟨conn, la, act, true, false, tr, buf ++ [b]⟩ rfl rfl
              (by dsimp only; simp only [List.length_append, List.length_cons,
                    List.length_nil]; omega)]
        dsimp only
        simp only [Prod.mk.injEq, TcpClient.mk.injEq]
        refine ⟨⟨trivial, trivial, trivial, trivial, trivial, ?_, ?_⟩, by simp⟩
        · congr 1
          exact decide_eq_decide.mpr
            (by simp only [List.length_append, List.length_cons, List.length_nil]; omega)
        · rw [List.append_assoc, List.singleton_append]
          congr 1
          rw [← List.take_succ_cons]
          congr 1
          simp only [List.length_append, List.length_cons, List.length_nil]
          omega
      · rw [if_neg hlt]
        dsimp only
        rw [ih ⟨conn, la, act, true, false, true, buf⟩ rfl rfl (by dsimp only; omega)]
        dsimp only
        have heq : buf.length = TCP_IF_HW_MTU := by omega
        have h3 : TCP_IF_HW_MTU < buf.length + (rest.length + 1) := by omega
        simp [heq, h3]

theorem stuff_byte_length (b : Nat) : (stuff_byte b).length ≤ 2 := by
  unfold stuff_byte; split <;> simp

theorem frame_loop_cons (acc : List Nat) (b : Nat) (rest : List Nat) :
    frame_loop acc (b :: rest) =
      if TCP_IF_HW_MTU * 2 + 4 - 4 ≤ (acc ++ stuff_byte b).length then acc ++ stuff_byte b
      else frame_loop (acc ++ stuff_byte b) rest :=
  rfl

/-- For payloads of at most `TCP_IF_HW_MTU` bytes the framing loop's
safety break never truncates: it emits the plain stuffed encoding. -/
theorem frame_loop_eq (p : List Nat) : ∀ acc : List Nat,
    acc.length + 2 * p.length ≤ 2 * TCP_IF_HW_MTU + 1 →
    frame_loop acc p = acc ++ stuff_bytes p := by
  induction p with
  | nil => intro acc _; simp [frame_loop, stuff_bytes]
  | cons b rest ih =>
    intro acc hacc
    have hsb := stuff_byte_length b
    rw [frame_loop_cons]
    cases rest with
    | nil =>
      rw [show frame_loop (acc ++ stuff_byte b) [] = acc ++ stuff_byte b from rfl, ite_self]
      simp [stuff_bytes]
    | cons b2 rest2 =>
      have hlen : ¬ (TCP_IF_HW_MTU * 2 + 4 - 4 ≤ (acc ++ stuff_byte b).length) := by
        simp only [List.length_append, List.length_cons] at *
        omega
      rw [if_neg hlen,
          ih (acc ++ stuff_byte b)
            (by simp only [List.length_append, List.length_cons] at *; omega)]
      simp [stuff_bytes]

theorem hdlc_frame_eq (p : List Nat) (h : p.length ≤ TCP_IF_HW_MTU) :
    hdlc_frame p = HDLC_FLAG :: (stuff_bytes p ++ [HDLC_FLAG]) := by
  unfold hdlc_frame
  rw [frame_loop_eq p [HDLC_FLAG] (by simp; unfold TCP_IF_HW_MTU at *; omega)]
  simp

/-- A full frame fed into a deframer whose receive buffer is empty: the
payload is delivered and the deframing state ends freshly reset. -/
theorem deframe_clean_frame (c : TcpClient) (q : List Nat) (hbuf : c.rxbuf = [])
    (hq1 : q ≠ []) (hq2 : q.length ≤ TCP_IF_HW_MTU) :
    hdlc_deframe_list c (hdlc_frame q) =
      ({ c with in_frame := true, escape := false, truncated := false, rxbuf := [] },
       [DeframeEvent.deliver q]) := by
  obtain ⟨conn, la, act, inf, esc, tr, buf⟩ := c
  dsimp only at hbuf ⊢
  subst hbuf
  rw [hdlc_frame_eq q hq2, hdlc_deframe_list_cons,
      hdlc_deframe_flag_idle ⟨conn, la, act, inf, esc, tr, []⟩ (Or.inr rfl)]
  dsimp only
  rw [hdlc_deframe_list_append,
      deframe_stuffed q ⟨conn, la, act, true, false, false, []⟩ rfl rfl (by simp)]
  dsimp only
  have htk : List.take (TCP_IF_HW_MTU - ([] : List Nat).length) q = q := by
    simp [List.take_of_length_le, hq2]
  have hdc : ¬ (TCP_IF_HW_MTU < ([] : List Nat).length + q.length) := by
    simp only [List.length_nil, Nat.zero_add]; omega
  rw [hdlc_deframe_list_cons]
  rw [show (⟨conn, la, act, true, false,
        false || decide (TCP_IF_HW_MTU < ([] : List Nat).length + q.length),
        [] ++ List.take (TCP_IF_HW_MTU - ([] : List Nat).length) q⟩ : TcpClient)
      = ⟨conn, la, act, true, false, false, q⟩ from by
    simp [htk, decide_eq_false hdc]
    omega]
  rw [hdlc_deframe_flag_deliver ⟨conn, la, act, true, false, false, q⟩ rfl hq1 rfl]
  simp [hdlc_deframe_list]

/-- Feeding an oversized stuffed body, its terminating flag, and then a
well-sized frame: the oversized frame is dropped whole (diagnostic event,
no delivery), the deframing state is reset, and the following frame is
delivered normally. -/
theorem deframe_oversized_then_clean (c : TcpClient) (p q : List Nat)
    (hin : c.in_frame = true) (hesc : c.escape = false) (htr : c.truncated = false)
    (hbuf : c.rxbuf = []) (hp : TCP_IF_HW_MTU < p.length)
    (hq1 : q ≠ []) (hq2 : q.length ≤ TCP_IF_HW_MTU) :
    hdlc_deframe_list c ((stuff_bytes p ++ [HDLC_FLAG]) ++ hdlc_frame q) =
      ({ c with in_frame := true, escape := false, truncated := false, rxbuf := [] },
       [DeframeEvent.drop_oversized TCP_IF_HW_MTU, DeframeEvent.deliver q]) := by
  obtain ⟨conn, la, act, inf, esc, tr, buf⟩ := c
  dsimp only at hin hesc htr hbuf ⊢
  subst hin; subst hesc; subst htr; subst hbuf
  rw [hdlc_deframe_list_append, hdlc_deframe_list_append,
      deframe_stuffed p ⟨conn, la, act, true, false, false, []⟩ rfl rfl (by simp)]
  dsimp only
  have hdc : decide (TCP_IF_HW_MTU < ([] : List Nat).length + p.length) = true := by
    simp only [List.length_nil, Nat.zero_add]
    exact decide_eq_true hp
  have htk : ([] ++ List.take (TCP_IF_HW_MTU - ([] : List Nat).length) p) =
      List.take TCP_IF_HW_MTU p := by simp
  rw [show (⟨conn, la, act, true, false,
        false || decide (TCP_IF_HW_MTU < ([] : List Nat).length + p.length),
        [] ++ List.take (TCP_IF_HW_MTU - ([] : List Nat).length) p⟩ : TcpClient)
      = ⟨conn, la, act, true, false, true, List.take TCP_IF_HW_MTU p⟩ from by
    simp [hdc]
    omega]
  have hne : List.take TCP_IF_HW_MTU p ≠ [] := by
    have : (List.take TCP_IF_HW_MTU p).length = TCP_IF_HW_MTU := by
      rw [List.length_take]; omega
    intro hcon
    rw [hcon] at this
    simp [TCP_IF_HW_MTU] at this
  rw [hdlc_deframe_list_cons,
      hdlc_deframe_flag_drop ⟨conn, la, act, true, false, true, List.take TCP_IF_HW_MTU p⟩
        rfl hne rfl]
  dsimp only
  rw [show (List.take TCP_IF_HW_MTU p).length = TCP_IF_HW_MTU from by
        rw [List.length_take]; omega]
  rw [show hdlc_deframe_list ⟨conn, la, act, true, false, false, []⟩ [] =
        (⟨conn, la, act, true, false, false, []⟩, []) from rfl]
  rw [deframe_clean_frame ⟨conn, la, act, true, false, false, []⟩ q rfl hq1 hq2]
  simp

/-- Any frame `_hdlc_deframe` delivers to `handle_incoming` is nonempty:
two consecutive flag bytes (a keepalive) never produce a delivery. -/
theorem hdlc_deframe_deliver_nonempty (c : TcpClient) (b : Nat) (d : List Nat)
    (h : (hdlc_deframe c b).2 = some (DeframeEvent.deliver d)) : d ≠ [] := by
  unfold hdlc_deframe at h
  split_ifs at h with h1 h2 h3 h4 h5 h6 h7
  all_goals first
  | exact Option.noConfusion h
  | (injection h with h8
     first
     | exact DeframeEvent.noConfusion h8
     | (injection h8 with h9
        rw [← h9]
        exact List.length_pos.mp h2.2))

/-- C7, corrected: the claim quantifies over every payload of at most
`HW_MTU` bytes, but a zero-length payload frames to two consecutive flag
bytes, which the deframer treats as a keepalive and never delivers — so
the round trip fails at the empty payload. -/
theorem hdlc_round_trip_empty_cex :
    (hdlc_deframe_list init_client (hdlc_frame [])).2 = [] ∧
    (hdlc_deframe_list init_client (hdlc_frame [])).2 ≠ [DeframeEvent.deliver []] := by
  constructor <;> decide

/-- C7 (amended to nonempty payloads): for every nonempty payload of at
most `HW_MTU` (1064) bytes, feeding the byte sequence produced by
`send_outgoing`'s framing one byte at a time into the deframer yields
exactly the original payload as the delivered frame. -/
theorem hdlc_round_trip (p : List Nat) (hne : p ≠ []) (h : p.length ≤ TCP_IF_HW_MTU) :
    (hdlc_deframe_list init_client (hdlc_frame p)).2 = [DeframeEvent.deliver p] := by
  rw [deframe_clean_frame init_client p rfl hne h]

theorem hdlc_round_trip_witness :
    (hdlc_deframe_list init_client (hdlc_frame [1, 126, 125, 0])).2 =
      [DeframeEvent.deliver [1, 126, 125, 0]] :=
  hdlc_round_trip [1, 126, 125, 0] (by decide) (by decide)

/-- C1: a frame whose stuffed payload overflows the `HW_MTU`-sized receive
buffer is dropped whole when its terminating flag arrives — a diagnostic
event is emitted, `handle_incoming` receives no truncated prefix of it —
and the connection's deframing state is reset, so the next well-sized
frame on the connection is delivered normally. -/
theorem oversized_frame_dropped_and_recovered (c : TcpClient) (p q : List Nat)
    (hin : c.in_frame = true) (hesc : c.escape = false) (htr : c.truncated = false)
    (hbuf : c.rxbuf = []) (hp : TCP_IF_HW_MTU < p.length)
    (hq1 : q ≠ []) (hq2 : q.length ≤ TCP_IF_HW_MTU) :
    (hdlc_deframe_list c ((stuff_bytes p ++ [HDLC_FLAG]) ++ hdlc_frame q)).2 =
      [DeframeEvent.drop_oversized TCP_IF_HW_MTU, DeframeEvent.deliver q] ∧
    delivered_frames
        (hdlc_deframe_list c ((stuff_bytes p ++ [HDLC_FLAG]) ++ hdlc_frame q)).2 = [q] ∧
    (hdlc_deframe_list c ((stuff_bytes p ++ [HDLC_FLAG]) ++ hdlc_frame q)).1 =
      { c with in_frame := true, escape := false, truncated := false, rxbuf := [] } := by
  rw [deframe_oversized_then_clean c p q hin hesc htr hbuf hp hq1 hq2]
  exact ⟨rfl, rfl, rfl⟩

theorem oversized_frame_dropped_and_recovered_witness :
    (hdlc_deframe_list ⟨false, 0, false, true, false, false, []⟩
        ((stuff_bytes (List.replicate 1065 0) ++ [HDLC_FLAG]) ++ hdlc_frame [1, 2])).2 =
      [DeframeEvent.drop_oversized TCP_IF_HW_MTU, DeframeEvent.deliver [1, 2]] ∧
    delivered_frames
        (hdlc_deframe_list ⟨false, 0, false, true, false, false, []⟩
          ((stuff_bytes (List.replicate 1065 0) ++ [HDLC_FLAG]) ++ hdlc_frame [1, 2])).2 =
      [[1, 2]] ∧
    (hdlc_deframe_list ⟨false, 0, false, true, false, false, []⟩
        ((stuff_bytes (List.replicate 1065 0) ++ [HDLC_FLAG]) ++ hdlc_frame [1, 2])).1 =
      { (⟨false, 0, false, true, false, false, []⟩ : TcpClient) with
        in_frame := true, escape := false, truncated := false, rxbuf := [] } :=
  oversized_frame_dropped_and_recovered ⟨false, 0, false, true, false, false, []⟩
    (List.replicate 1065 0) [1, 2] rfl rfl rfl rfl
    (by simp only [List.length_replicate, TCP_IF_HW_MTU]; omega) (by decide) (by decide)

/-- C2: a LINKREQUEST proposing an 8192-byte MTU, forwarded between two
interfaces that both declare `FIXED_MTU` with `HW_MTU` 1064, has its
signalling bytes rewritten to encode 1064 — the minimum of the two
interface MTUs; the TCP interface declares `FIXED_MTU = true` and
`HW_MTU = 1064`, so this clamping applies to it. -/
theorem linkrequest_mtu_clamped :
    clamp_lr_mtu 8192 tcp_interface_props.HW_MTU tcp_interface_props =
      LrMtuAction.rewrite 1064 ∧
    tcp_interface_props.FIXED_MTU = true ∧
    tcp_interface_props.HW_MTU = 1064 ∧
    1064 = min tcp_interface_props.HW_MTU tcp_interface_props.HW_MTU := by
  decide

/-- Every `_connect_client` call with a configured target host ends in
either the failure tail (backoff) or the success tail (slot 0 installed),
applied to a state whose backoff fields are those of the input state. -/
theorem connect_client_shape (st : TcpState) (env : ConnectEnv)
    (h : st.target_host ≠ []) :
    (∃ s : TcpState, s.reconnect_interval = st.reconnect_interval ∧
        s.consecutive_failures = st.consecutive_failures ∧
        connect_client st env = (connect_failure s env.now, (connect_client st env).2) ∧
        (connect_client st env).2.connected = false) ∨
    (∃ s : TcpState,
        connect_client st env = (connect_success s env.now, (connect_client st env).2) ∧
        (connect_client st env).2.connected = true) := by
  unfold connect_client
  rw [if_neg h]
  split_ifs <;>
  first
  | exact Or.inr ⟨st, rfl, rfl⟩
  | exact Or.inr ⟨{ st with resolved_ip := env.dns_ip }, rfl, rfl⟩
  | exact Or.inl ⟨st, rfl, rfl, rfl, rfl⟩
  | exact Or.inl ⟨{ st with resolved_ip := env.dns_ip }, rfl, rfl, rfl, rfl⟩
  | exact Or.inl ⟨{ st with resolved_ip := 0 }, rfl, rfl, rfl, rfl⟩

/-- C4: in client role, every failed connection attempt doubles the
reconnect interval, capping it at `TCP_IF_RECONNECT_MAX` (120000 ms), and
increments the consecutive-failure counter; a successful attempt resets
the interval to `TCP_IF_RECONNECT_MIN` (10000 ms) and the counter to
zero. -/
theorem reconnect_backoff (st : TcpState) (env : ConnectEnv)
    (h : st.target_host ≠ []) :
    ((connect_client st env).2.connected = false →
      (connect_client st env).1.reconnect_interval =
        min (st.reconnect_interval * 2) TCP_IF_RECONNECT_MAX ∧
      (connect_client st env).1.reconnect_interval ≤ TCP_IF_RECONNECT_MAX ∧
      (connect_client st env).1.consecutive_failures = st.consecutive_failures + 1) ∧
    ((connect_client st env).2.connected = true →
      (connect_client st env).1.reconnect_interval = TCP_IF_RECONNECT_MIN ∧
      (connect_client st env).1.consecutive_failures = 0) ∧
    TCP_IF_RECONNECT_MIN = 10000 ∧ TCP_IF_RECONNECT_MAX = 120000 := by
  have hfail : ∀ (s : TcpState) (now : Nat),
      (connect_failure s now).reconnect_interval =
        min (s.reconnect_interval * 2) TCP_IF_RECONNECT_MAX ∧
      (connect_failure s now).reconnect_interval ≤ TCP_IF_RECONNECT_MAX ∧
      (connect_failure s now).consecutive_failures = s.consecutive_failures + 1 := by
    intro s now
    refine ⟨?_, ?_, rfl⟩ <;> (simp only [connect_failure]; split_ifs <;> omega)
  rcases connect_client_shape st env h with ⟨s, hri, hcf, heq, hcon⟩ | ⟨s, heq, hcon⟩
  · refine ⟨fun _ => ?_, fun hc => absurd (hcon.symm.trans hc) (by simp), rfl, rfl⟩
    have hf2 := hfail s env.now
    rw [hri, hcf] at hf2
    rw [heq]
    exact hf2
  · refine ⟨fun hc => absurd (hcon.symm.trans hc) (by simp), fun _ => ?_, rfl, rfl⟩
    rw [heq]
    simp [connect_success]

theorem reconnect_backoff_witness :
    ((connect_client
        ⟨.client, List.replicate 8 init_client, 0, 0, 0, 80000, 120000, 0, 3,
          true, -1, [104], false⟩
        ⟨false, false, 0, false, 500⟩).2.connected = false →
      (connect_client
        ⟨.client, List.replicate 8 init_client, 0, 0, 0, 80000, 120000, 0, 3,
          true, -1, [104], false⟩
        ⟨false, false, 0, false, 500⟩).1.reconnect_interval =
          min (80000 * 2) TCP_IF_RECONNECT_MAX ∧
      (connect_client
        ⟨.client, List.replicate 8 init_client, 0, 0, 0, 80000, 120000, 0, 3,
          true, -1, [104], false⟩
        ⟨false, false, 0, false, 500⟩).1.reconnect_interval ≤ TCP_IF_RECONNECT_MAX ∧
      (connect_client
        ⟨.client, List.replicate 8 init_client, 0, 0, 0, 80000, 120000, 0, 3,
          true, -1, [104], false⟩
        ⟨false, false, 0, false, 500⟩).1.consecutive_failures = 3 + 1) ∧
    ((connect_client
        ⟨.client, List.replicate 8 init_client, 0, 0, 0, 80000, 120000, 0, 3,
          true, -1, [104], false⟩
        ⟨false, false, 0, false, 500⟩).2.connected = true →
      (connect_client
        ⟨.client, List.replicate 8 init_client, 0, 0, 0, 80000, 120000, 0, 3,
          true, -1, [104], false⟩
        ⟨false, false, 0, false, 500⟩).1.reconnect_interval = TCP_IF_RECONNECT_MIN ∧
      (connect_client
        ⟨.client, List.replicate 8 init_client, 0, 0, 0, 80000, 120000, 0, 3,
          true, -1, [104], false⟩
        ⟨false, false, 0, false, 500⟩).1.consecutive_failures = 0) ∧
    TCP_IF_RECONNECT_MIN = 10000 ∧ TCP_IF_RECONNECT_MAX = 120000 :=
  reconnect_backoff
    ⟨.client, List.replicate 8 init_client, 0, 0, 0, 80000, 120000, 0, 3,
      true, -1, [104], false⟩
    ⟨false, false, 0, false, 500⟩ (by decide)

/-- C8: in client role, a nonzero cached resolved address is used for the
connection attempt without a DNS lookup; the cache survives a successful
cached attempt, and is cleared exactly when the cached attempt fails,
after which a fresh DNS resolution is attempted (repopulating the cache on
DNS success, leaving it empty on DNS failure); with an empty cache a DNS
lookup is performed. -/
theorem dns_cache_policy (st : TcpState) (env : ConnectEnv)
    (h : st.target_host ≠ []) :
    (st.resolved_ip ≠ 0 →
      (connect_client st env).2.tried_cached = true) ∧
    (st.resolved_ip ≠ 0 → env.cached_connect_ok = true →
      (connect_client st env).2.did_dns = false ∧
      (connect_client st env).1.resolved_ip = st.resolved_ip) ∧
    (st.resolved_ip ≠ 0 → env.cached_connect_ok = false →
      (connect_client st env).2.did_dns = true ∧
      (env.dns_ok = true → (connect_client st env).1.resolved_ip = env.dns_ip) ∧
      (env.dns_ok = false → (connect_client st env).1.resolved_ip = 0)) ∧
    (st.resolved_ip = 0 →
      (connect_client st env).2.tried_cached = false ∧
      (connect_client st env).2.did_dns = true) := by
  refine ⟨?_, ?_, ?_, ?_⟩
  · intro hr
    unfold connect_client
    rw [if_neg h, if_pos hr]
    split_ifs <;> rfl
  · intro hr hco
    unfold connect_client
    rw [if_neg h, if_pos hr, if_pos hco]
    simp [connect_success]
  · intro hr hco
    unfold connect_client
    rw [if_neg h, if_pos hr, if_neg (by simp [hco])]
    by_cases hd : env.dns_ok <;> by_cases hf : env.fresh_connect_ok <;>
      simp [hd, hf, connect_success, connect_failure]
  · intro hr
    unfold connect_client
    rw [if_neg h, if_neg (by simp [hr])]
    split_ifs <;> exact ⟨rfl, rfl⟩

theorem dns_cache_policy_witness :
    ((42 : Nat) ≠ 0 →
      (connect_client
        ⟨.client, List.replicate 8 init_client, 0, 0, 0, 10000, 120000, 42, 0,
          true, -1, [104], false⟩
        ⟨true, false, 0, false, 500⟩).2.tried_cached = true) ∧
    ((42 : Nat) ≠ 0 → true = true →
      (connect_client
        ⟨.client, List.replicate 8 init_client, 0, 0, 0, 10000, 120000, 42, 0,
          true, -1, [104], false⟩
        ⟨true, false, 0, false, 500⟩).2.did_dns = false ∧
      (connect_client
        ⟨.client, List.replicate 8 init_client, 0, 0, 0, 10000, 120000, 42, 0,
          true, -1, [104], false⟩
        ⟨true, false, 0, false, 500⟩).1.resolved_ip = 42) ∧
    ((42 : Nat) ≠ 0 → true = false →
      (connect_client
        ⟨.client, List.replicate 8 init_client, 0, 0, 0, 10000, 120000, 42, 0,
          true, -1, [104], false⟩
        ⟨true, false, 0, false, 500⟩).2.did_dns = true ∧
      (false = true →
        (connect_client
          ⟨.client, List.replicate 8 init_client, 0, 0, 0, 10000, 120000, 42, 0,
            true, -1, [104], false⟩
          ⟨true, false, 0, false, 500⟩).1.resolved_ip = 0) ∧
      (false = false →
        (connect_client
          ⟨.client, List.replicate 8 init_client, 0, 0, 0, 10000, 120000, 42, 0,
            true, -1, [104], false⟩
          ⟨true, false, 0, false, 500⟩).1.resolved_ip = 0)) ∧
    ((42 : Nat) = 0 →
      (connect_client
        ⟨.client, List.replicate 8 init_client, 0, 0, 0, 10000, 120000, 42, 0,
          true, -1, [104], false⟩
        ⟨true, false, 0, false, 500⟩).2.tried_cached = false ∧
      (connect_client
        ⟨.client, List.replicate 8 init_client, 0, 0, 0, 10000, 120000, 42, 0,
          true, -1, [104], false⟩
        ⟨true, false, 0, false, 500⟩).2.did_dns = true) :=
  dns_cache_policy
    ⟨.client, List.replicate 8 init_client, 0, 0, 0, 10000, 120000, 42, 0,
      true, -1, [104], false⟩
    ⟨true, false, 0, false, 500⟩ (by decide)

theorem fs_lookup_remove (fs : List (Nat × List Nat)) (p : Nat) :
    fs_lookup (fs_remove fs p) p = none := by
  induction fs with
  | nil => rfl
  | cons e rest ih =>
    by_cases he : e.1 = p
    · simpa [fs_remove, he] using ih
    · simpa [fs_remove, fs_lookup, he] using ih

/-- C9: the cache-store file interface fully replaces on update and round
trips.  `write_file` first removes any existing file at the path; after a
successful `write_file` that opened the file and reported `data.size()`
bytes written, the store maps the path to exactly `data` (never stale
prior contents), a full `read_file` returns exactly `data`, and any
(possibly short) `read_file` resizes the output buffer to the number of
bytes actually read. -/
theorem write_read_round_trip (fs : List (Nat × List Nat)) (p : Nat)
    (data data0 : List Nat) (open_ok : Bool) (dev_wrote : Nat)
    (hopen : open_ok = true)
    (hw : (write_file fs p data open_ok dev_wrote).2 = data.length) :
    fs_lookup (write_file fs p data open_ok dev_wrote).1 p = some data ∧
    (∀ dev_read : Nat, data.length ≤ dev_read →
      read_file (write_file fs p data open_ok dev_wrote).1 p data0 dev_read =
        (data.length, data)) ∧
    (∀ dev_read : Nat,
      (read_file (write_file fs p data open_ok dev_wrote).1 p data0 dev_read).2.length =
        (read_file (write_file fs p data open_ok dev_wrote).1 p data0 dev_read).1) := by
  subst hopen
  have hw2 : min dev_wrote data.length = data.length := by
    have := hw
    unfold write_file at this
    simpa using this
  have ht : List.take (min dev_wrote data.length) data = data := by
    rw [hw2]; exact List.take_length data
  have hl : fs_lookup (write_file fs p data true dev_wrote).1 p = some data := by
    unfold write_file
    simp [fs_lookup, ht]
  refine ⟨hl, ?_, ?_⟩
  · intro dev_read hr
    unfold read_file
    rw [hl]
    have : min dev_read data.length = data.length := by omega
    simp [this, List.take_of_length_le]
  · intro dev_read
    unfold read_file
    rw [hl]
    simp [List.length_take]

theorem write_read_round_trip_witness :
    fs_lookup (write_file [(3, [9, 9])] 3 [1, 2, 3] true 3).1 3 = some [1, 2, 3] ∧
    (∀ dev_read : Nat, ([1, 2, 3] : List Nat).length ≤ dev_read →
      read_file (write_file [(3, [9, 9])] 3 [1, 2, 3] true 3).1 3 [7] dev_read =
        (([1, 2, 3] : List Nat).length, [1, 2, 3])) ∧
    (∀ dev_read : Nat,
      (read_file (write_file [(3, [9, 9])] 3 [1, 2, 3] true 3).1 3 [7] dev_read).2.length =
        (read_file (write_file [(3, [9, 9])] 3 [1, 2, 3] true 3).1 3 [7] dev_read).1) :=
  write_read_round_trip [(3, [9, 9])] 3 [1, 2, 3] [7] true 3 rfl (by decide)

/-! ### Slot-array bookkeeping lemmas -/

theorem countP_set_balance {α : Type} (p : α → Bool) :
    ∀ (l : List α) (i : Nat) (a c : α), l.get? i = some c →
    (l.set i a).countP p + (if p c then 1 else 0) =
      l.countP p + (if p a then 1 else 0) := by
  intro l
  induction l with
  | nil => intro i a c h; cases h
  | cons x xs ih =>
    intro i a c h
    cases i with
    | zero =>
      simp only [List.get?] at h
      injection h with hxc
      subst hxc
      simp only [List.set, List.countP_cons]
      omega
    | succ n =>
      simp only [List.get?] at h
      simp only [List.set, List.countP_cons]
      have := ih n a c h
      omega

theorem countP_pos_of_get? {α : Type} (p : α → Bool) (l : List α) (i : Nat) (c : α)
    (h : l.get? i = some c) (hp : p c = true) : 0 < l.countP p :=
  List.countP_pos.mpr ⟨c, List.get?_mem h, hp⟩

theorem first_inactive_spec : ∀ (cs : List TcpClient) (i : Nat),
    first_inactive cs = some i → ∃ c, cs.get? i = some c ∧ c.active = false := by
  intro cs
  induction cs with
  | nil => intro i h; cases h
  | cons c rest ih =>
    intro i h
    unfold first_inactive at h
    by_cases hc : c.active = false
    · rw [if_pos hc] at h
      injection h with hi
      subst hi
      exact ⟨c, rfl, hc⟩
    · rw [if_neg hc] at h
      cases hfi : first_inactive rest with
      | none => rw [hfi] at h; cases h
      | some j =>
        rw [hfi] at h
        simp only [Option.map_some'] at h
        injection h with hi
        subst hi
        obtain ⟨c', hc', ha'⟩ := ih j hfi
        exact ⟨c', hc', ha'⟩

theorem first_inactive_none : ∀ cs : List TcpClient,
    (∀ c ∈ cs, c.active = true) → first_inactive cs = none := by
  intro cs
  induction cs with
  | nil => intro _; rfl
  | cons c rest ih =>
    intro h
    unfold first_inactive
    rw [if_neg (by simp [h c (List.mem_cons_self c rest)]),
        ih (fun c' hc' => h c' (List.mem_cons_of_mem c hc'))]
    rfl

/-! ### Facts about the state operations -/

theorem update_client_get_self (st : TcpState) (i : Nat) (f : TcpClient → TcpClient)
    (c : TcpClient) (h : st.clients.get? i = some c) :
    (update_client st i f).clients.get? i = some (f c) := by
  unfold update_client
  rw [h]
  exact List.get?_set_eq_of_lt _ (List.get?_eq_some.mp h).1

theorem update_client_get_ne (st : TcpState) (i : Nat) (f : TcpClient → TcpClient)
    (j : Nat) (h : j ≠ i) :
    (update_client st i f).clients.get? j = st.clients.get? j := by
  unfold update_client
  cases hx : st.clients.get? i
  · rfl
  · exact List.get?_set_ne _ _ (Ne.symm h)

theorem update_client_scalars (st : TcpState) (i : Nat) (f : TcpClient → TcpClient) :
    (update_client st i f).num_clients = st.num_clients ∧
    (update_client st i f).read_timeout = st.read_timeout ∧
    (update_client st i f).started = st.started ∧
    (update_client st i f).mode = st.mode ∧
    (update_client st i f).last_rx_client_idx = st.last_rx_client_idx ∧
    (update_client st i f).clients.length = st.clients.length := by
  unfold update_client
  cases st.clients.get? i <;> simp

theorem update_client_countP (st : TcpState) (i : Nat) (f : TcpClient → TcpClient)
    (hf : ∀ c, (f c).active = c.active) :
    (update_client st i f).clients.countP (fun c => c.active) =
      st.clients.countP (fun c => c.active) := by
  unfold update_client
  cases hx : st.clients.get? i
  · rfl
  · rename_i c
    dsimp only
    have hbal := countP_set_balance (fun x => x.active) st.clients i (f c) c hx
    dsimp only at hbal
    rw [hf c] at hbal
    omega

theorem cleanup_client_eq (st : TcpState) (i : Nat) (r : CleanupReason)
    (c : TcpClient) (h : st.clients.get? i = some c) (ha : c.active = true) :
    cleanup_client st i r =
      ({ st with clients := st.clients.set i (cleaned c),
                 num_clients := st.num_clients - 1 },
       [SockAction.rst_close i r]) := by
  simp only [cleanup_client, h]
  rw [if_neg (by simp [ha])]

theorem cleanup_client_get_self (st : TcpState) (i : Nat) (r : CleanupReason)
    (c : TcpClient) (h : st.clients.get? i = some c) (ha : c.active = true) :
    (cleanup_client st i r).1.clients.get? i = some (cleaned c) := by
  rw [cleanup_client_eq st i r c h ha]
  exact List.get?_set_eq_of_lt _ (List.get?_eq_some.mp h).1

theorem cleanup_client_get_ne (st : TcpState) (i : Nat) (r : CleanupReason)
    (j : Nat) (h : j ≠ i) :
    (cleanup_client st i r).1.clients.get? j = st.clients.get? j := by
  unfold cleanup_client
  cases hx : st.clients.get? i
  · rfl
  · dsimp only
    split_ifs
    · rfl
    · exact List.get?_set_ne _ _ (Ne.symm h)

theorem cleanup_client_scalars (st : TcpState) (i : Nat) (r : CleanupReason) :
    (cleanup_client st i r).1.read_timeout = st.read_timeout ∧
    (cleanup_client st i r).1.started = st.started ∧
    (cleanup_client st i r).1.mode = st.mode ∧
    (cleanup_client st i r).1.last_rx_client_idx = st.last_rx_client_idx ∧
    (cleanup_client st i r).1.clients.length = st.clients.length := by
  unfold cleanup_client
  cases st.clients.get? i
  · simp
  · dsimp only
    split_ifs <;> simp

theorem cleanup_client_inv (st : TcpState) (i : Nat) (r : CleanupReason)
    (hinv : clients_inv st) : clients_inv (cleanup_client st i r).1 := by
  unfold cleanup_client
  cases hx : st.clients.get? i
  · exact hinv
  · rename_i c
    dsimp only
    split_ifs with ha
    · exact hinv
    · have hact : c.active = true := by
        cases hc : c.active
        · exact absurd hc ha
        · rfl
      have hbal := countP_set_balance (fun x => x.active) st.clients i (cleaned c) c hx
      dsimp only at hbal
      have hclean : (cleaned c).active = false := rfl
      rw [hclean, hact] at hbal
      simp only [if_pos, if_neg, Bool.false_eq_true, if_false, if_true] at hbal
      obtain ⟨hlen, hnum⟩ := hinv
      constructor
      · simpa using hlen
      · dsimp only
        rw [hnum]
        omega

theorem accept_client_full (st : TcpState) (now : Nat)
    (h : ∀ c ∈ st.clients, c.active = true) :
    accept_client st now = (st, false) := by
  unfold accept_client
  rw [first_inactive_none st.clients h]

theorem accept_client_active_slot (st : TcpState) (now : Nat) (i : Nat) (c : TcpClient)
    (h : st.clients.get? i = some c) (ha : c.active = true) :
    (accept_client st now).1.clients.get? i = some c := by
  unfold accept_client
  cases hfi : first_inactive st.clients
  · exact h
  · rename_i j
    obtain ⟨c', hc', ha'⟩ := first_inactive_spec st.clients j hfi
    dsimp only
    have hne : j ≠ i := by
      intro he
      subst he
      rw [h] at hc'
      injection hc' with he2
      rw [← he2] at ha'
      rw [ha] at ha'
      cases ha'
    rw [List.get?_set_ne _ _ hne]
    exact h

theorem accept_client_scalars (st : TcpState) (now : Nat) :
    (accept_client st now).1.read_timeout = st.read_timeout ∧
    (accept_client st now).1.started = st.started ∧
    (accept_client st now).1.mode = st.mode ∧
    (accept_client st now).1.last_rx_client_idx = st.last_rx_client_idx ∧
    (accept_client st now).1.clients.length = st.clients.length := by
  unfold accept_client
  cases first_inactive st.clients <;> simp

theorem accept_client_inv (st : TcpState) (now : Nat) (hinv : clients_inv st) :
    clients_inv (accept_client st now).1 := by
  unfold accept_client
  cases hfi : first_inactive st.clients
  · exact hinv
  · rename_i j
    obtain ⟨c', hc', ha'⟩ := first_inactive_spec st.clients j hfi
    obtain ⟨hlen, hnum⟩ := hinv
    have hbal := countP_set_balance (fun x => x.active) st.clients j (new_tcp_client now) c' hc'
    dsimp only at hbal
    rw [ha'] at hbal
    have hnew : (new_tcp_client now).active = true := rfl
    rw [hnew] at hbal
    simp only [if_pos, if_neg, Bool.false_eq_true, if_false, if_true] at hbal
    constructor
    · simpa using hlen
    · dsimp only
      rw [hnum]
      omega

theorem accept_client_num_pos (st : TcpState) (now : Nat) (i : Nat) (c : TcpClient)
    (hinv : clients_inv st) (h : st.clients.get? i = some c) (ha : c.active = true) :
    (accept_client st now).1.num_clients ≠ 0 := by
  have hpos := countP_pos_of_get? (fun x => x.active) st.clients i c h ha
  obtain ⟨hlen, hnum⟩ := hinv
  unfold accept_client
  cases hfi : first_inactive st.clients
  · dsimp only
    rw [hnum]
    omega
  · dsimp only
    rw [hnum]
    omega

/-- `_hdlc_deframe` never touches a slot's `active`, `connected` or
`last_activity` fields. -/
theorem hdlc_deframe_preserves (c : TcpClient) (b : Nat) :
    (hdlc_deframe c b).1.active = c.active ∧
    (hdlc_deframe c b).1.connected = c.connected ∧
    (hdlc_deframe c b).1.last_activity = c.last_activity := by
  unfold hdlc_deframe
  split_ifs <;> simp

/-- One interface-level deframing step with the pure collection callback:
the slot array changes only at `idx` (keeping that slot's `active`,
`connected` and `last_activity` fields), every scalar except
`_last_rx_client_idx` is preserved, and so is the active count. -/
theorem hdlc_deframe_rt_emit_facts (st : TcpState) (i : Nat) (b : Nat) (c : TcpClient)
    (h : st.clients.get? i = some c) :
    ∃ c' : TcpClient,
      (hdlc_deframe_rt (fun s d => (s, d)) st i b).1.clients = st.clients.set i c' ∧
      c'.active = c.active ∧ c'.connected = c.connected ∧
      c'.last_activity = c.last_activity ∧
      (hdlc_deframe_rt (fun s d => (s, d)) st i b).1.num_clients = st.num_clients ∧
      (hdlc_deframe_rt (fun s d => (s, d)) st i b).1.read_timeout = st.read_timeout := by
  unfold hdlc_deframe_rt
  rw [h]
  dsimp only
  rcases hd : hdlc_deframe c b with ⟨c2, ev⟩
  have hpres := hdlc_deframe_preserves c b
  rw [hd] at hpres
  dsimp only at hpres
  cases ev with
  | none =>
    exact ⟨c2, rfl, hpres.1, hpres.2.1, hpres.2.2, rfl, rfl⟩
  | some e =>
    cases e with
    | drop_oversized n =>
      exact ⟨c2, rfl, hpres.1, hpres.2.1, hpres.2.2, rfl, rfl⟩
    | deliver d =>
      dsimp only [update_client]
      rw [h]
      exact ⟨{ c with in_frame := true, escape := false, truncated := false, rxbuf := [] },
        rfl, rfl, rfl, rfl, rfl, rfl⟩

/-- The read loop preserves every other slot, the processed slot's
`active`/`connected` flags, the active count, `_num_clients` and the read
timeout. -/
theorem read_client_bytes_facts (bs : List Nat) :
    ∀ (st : TcpState) (i : Nat) (now : Nat) (c : TcpClient),
    st.clients.get? i = some c →
    (read_client_bytes st i now bs).1.clients.length = st.clients.length ∧
    (∀ j, j ≠ i → (read_client_bytes st i now bs).1.clients.get? j = st.clients.get? j) ∧
    (∃ c', (read_client_bytes st i now bs).1.clients.get? i = some c' ∧
      c'.active = c.active ∧ c'.connected = c.connected) ∧
    (read_client_bytes st i now bs).1.num_clients = st.num_clients ∧
    (read_client_bytes st i now bs).1.clients.countP (fun x => x.active) =
      st.clients.countP (fun x => x.active) ∧
    (read_client_bytes st i now bs).1.read_timeout = st.read_timeout := by
  induction bs with
  | nil =>
    intro st i now c h
    exact ⟨rfl, fun j _ => rfl, ⟨c, h, rfl, rfl⟩, rfl, rfl, rfl⟩
  | cons b rest ih =>
    intro st i now c h
    rw [read_client_bytes]
    have hidx : i < st.clients.length := (List.get?_eq_some.mp h).1
    have h1 : (update_client st i (fun c => { c with last_activity := now })).clients.get? i =
        some { c with last_activity := now } := update_client_get_self st i _ c h
    obtain ⟨c2, hc2, hc2a, hc2c, hc2la, hnum2, hrt2⟩ :=
      hdlc_deframe_rt_emit_facts (update_client st i (fun c => { c with last_activity := now }))
        i b { c with last_activity := now } h1
    set st1 := update_client st i (fun c => { c with last_activity := now }) with hst1
    set st2 := (hdlc_deframe_rt (fun s d => (s, d)) st1 i b).1 with hst2
    have h2 : st2.clients.get? i = some c2 := by
      rw [hc2]
      exact List.get?_set_eq_of_lt _ (by
        rw [hst1, (update_client_scalars st i _).2.2.2.2.2]
        exact hidx)
    obtain ⟨ihlen, ihne, ⟨c3, hc3, hc3a, hc3c⟩, ihnum, ihcount, ihrt⟩ := ih st2 i now c2 h2
    refine ⟨?_, ?_, ?_, ?_, ?_, ?_⟩
    · rw [ihlen, hc2]
      rw [List.length_set]
      exact (update_client_scalars st i _).2.2.2.2.2
    · intro j hj
      rw [ihne j hj, hc2, List.get?_set_ne _ _ (Ne.symm hj),
          update_client_get_ne st i _ j hj]
    · exact ⟨c3, hc3, by rw [hc3a, hc2a], by rw [hc3c, hc2c]⟩
    · rw [ihnum, hnum2, (update_client_scalars st i _).1]
    · rw [ihcount, hc2]
      have hbal := countP_set_balance (fun x => x.active) st1.clients i c2
        { c with last_activity := now } h1
      dsimp only at hbal
      rw [hc2a] at hbal
      have hc1 : (update_client st i (fun c => { c with last_activity := now })).clients.countP
          (fun x => x.active) = st.clients.countP (fun x => x.active) :=
        update_client_countP st i _ (fun c => rfl)
      rw [← hst1] at hc1
      dsimp only at hbal ⊢
      omega
    · rw [ihrt, hrt2, (update_client_scalars st i _).2.1]

theorem process_client_facts (env : LoopEnv) (st : TcpState) (j : Nat) :
    (process_client env st j).1.clients.length = st.clients.length ∧
    (∀ i, i ≠ j → (process_client env st j).1.clients.get? i = st.clients.get? i) ∧
    (process_client env st j).1.read_timeout = st.read_timeout ∧
    (clients_inv st → clients_inv (process_client env st j).1) := by
  unfold process_client
  cases hx : st.clients.get? j
  · exact ⟨rfl, fun i _ => rfl, rfl, fun hi => hi⟩
  · rename_i c
    dsimp only
    split_ifs with h1 h2 h3
    · exact ⟨rfl, fun i _ => rfl, rfl, fun hi => hi⟩
    · exact ⟨(cleanup_client_scalars st j _).2.2.2.2,
        fun i hi => cleanup_client_get_ne st j _ i hi,
        (cleanup_client_scalars st j _).1,
        fun hi => cleanup_client_inv st j _ hi⟩
    · exact ⟨(cleanup_client_scalars st j _).2.2.2.2,
        fun i hi => cleanup_client_get_ne st j _ i hi,
        (cleanup_client_scalars st j _).1,
        fun hi => cleanup_client_inv st j _ hi⟩
    · obtain ⟨hlen, hget, _, hnum, hcount, hrt⟩ :=
        read_client_bytes_facts (env.incoming j) st j env.now c hx
      refine ⟨hlen, fun i hi => hget i hi, hrt, fun hi => ?_⟩
      obtain ⟨hl, hn⟩ := hi
      exact ⟨by rw [hlen]; exact hl, by rw [hnum, hcount]; exact hn⟩

theorem process_client_timeout (env : LoopEnv) (st : TcpState) (i : Nat) (c : TcpClient)
    (h : st.clients.get? i = some c) (ha : c.active = true) (hc : c.connected = true)
    (hrt : 0 < st.read_timeout) (hla : 0 < c.last_activity)
    (hel : st.read_timeout < elapsed32 env.now c.last_activity) :
    process_client env st i =
      ((cleanup_client st i CleanupReason.read_timeout).1,
       [SockAction.rst_close i CleanupReason.read_timeout], []) := by
  unfold process_client
  rw [h]
  dsimp only
  rw [if_neg (by simp [ha]), if_neg (by simp [hc]), if_pos ⟨hrt, hla, hel⟩,
      cleanup_client_eq st i _ c h ha]

theorem process_clients_facts (env : LoopEnv) (is : List Nat) :
    ∀ st : TcpState,
    (process_clients env st is).1.clients.length = st.clients.length ∧
    (∀ i, i ∉ is → (process_clients env st is).1.clients.get? i = st.clients.get? i) ∧
    (process_clients env st is).1.read_timeout = st.read_timeout ∧
    (clients_inv st → clients_inv (process_clients env st is).1) := by
  induction is with
  | nil => intro st; exact ⟨rfl, fun i _ => rfl, rfl, fun h => h⟩
  | cons j rest ih =>
    intro st
    rw [process_clients]
    obtain ⟨l1, g1, r1, v1⟩ := process_client_facts env st j
    obtain ⟨l2, g2, r2, v2⟩ := ih (process_client env st j).1
    refine ⟨by rw [l2, l1], ?_, by rw [r2, r1], fun hi => v2 (v1 hi)⟩
    intro i hi
    have hij : i ≠ j := fun he => hi (he ▸ List.mem_cons_self j rest)
    have hirest : i ∉ rest := fun hm => hi (List.mem_cons_of_mem j hm)
    rw [g2 i hirest, g1 i hij]

theorem process_clients_timeout (env : LoopEnv) (is : List Nat) :
    ∀ (st : TcpState) (i : Nat) (c : TcpClient),
    is.Nodup → i ∈ is →
    st.clients.get? i = some c →
    c.active = true → c.connected = true →
    0 < st.read_timeout → 0 < c.last_activity →
    st.read_timeout < elapsed32 env.now c.last_activity →
    (process_clients env st is).1.clients.get? i = some (cleaned c) ∧
    SockAction.rst_close i CleanupReason.read_timeout ∈ (process_clients env st is).2.1 := by
  induction is with
  | nil => intro st i c _ hmem; cases hmem
  | cons j rest ih =>
    intro st i c hnd hmem h ha hc hrt hla hel
    rw [process_clients]
    by_cases hij : j = i
    · subst hij
      rw [process_client_timeout env st j c h ha hc hrt hla hel]
      dsimp only
      have hnotin : j ∉ rest := (List.nodup_cons.mp hnd).1
      obtain ⟨_, g2, _, _⟩ :=
        process_clients_facts env rest (cleanup_client st j CleanupReason.read_timeout).1
      constructor
      · rw [g2 j hnotin]
        exact cleanup_client_get_self st j _ c h ha
      · exact List.mem_append.mpr (Or.inl (List.mem_singleton.mpr rfl))
    · have hmem' : i ∈ rest := by
        cases hmem with
        | head => exact absurd rfl hij
        | tail _ hm => exact hm
      obtain ⟨l1, g1, r1, _⟩ := process_client_facts env st j
      have h' : (process_client env st j).1.clients.get? i = some c := by
        rw [g1 i (fun he => hij he.symm)]
        exact h
      have hrt' : 0 < (process_client env st j).1.read_timeout := by
        rw [r1]; exact hrt
      have hel' : (process_client env st j).1.read_timeout <
          elapsed32 env.now c.last_activity := by
        rw [r1]; exact hel
      obtain ⟨hg, hm⟩ := ih (process_client env st j).1 i c (List.nodup_cons.mp hnd).2
        hmem' h' ha hc hrt' hla hel'
      exact ⟨hg, List.mem_append.mpr (Or.inr hm)⟩

theorem send_clients_facts (wr : Nat → Nat) (frame : List Nat) (is : List Nat) :
    ∀ st : TcpState,
    (∀ j, j ∉ is → (send_clients wr frame st is).1.clients.get? j = st.clients.get? j) ∧
    (send_clients wr frame st is).1.last_rx_client_idx = st.last_rx_client_idx ∧
    (send_clients wr frame st is).1.clients.length = st.clients.length ∧
    (clients_inv st → clients_inv (send_clients wr frame st is).1) := by
  induction is with
  | nil => intro st; exact ⟨fun j _ => rfl, rfl, rfl, fun h => h⟩
  | cons j rest ih =>
    intro st
    rw [send_clients]
    by_cases hlr : (j : Int) = st.last_rx_client_idx
    · rw [if_pos hlr]
      exact ⟨fun x hx => ((ih st).1 x fun hm => hx (List.mem_cons_of_mem j hm)),
        (ih st).2.1, (ih st).2.2.1, (ih st).2.2.2⟩
    · rw [if_neg hlr]
      cases hx : st.clients.get? j
      · exact ⟨fun x hxm => ((ih st).1 x fun hm => hxm (List.mem_cons_of_mem j hm)),
          (ih st).2.1, (ih st).2.2.1, (ih st).2.2.2⟩
      · rename_i c
        dsimp only
        by_cases hac : (c.active && c.connected) = true
        · rw [if_pos hac]
          by_cases hw : wr j = 0
          · rw [if_pos hw]
            obtain ⟨g2, lr2, l2, v2⟩ :=
              ih (cleanup_client st j CleanupReason.write_failed).1
            refine ⟨?_, ?_, ?_, ?_⟩
            · intro x hxm
              have hxj : x ≠ j := fun he => hxm (he ▸ List.mem_cons_self j rest)
              rw [g2 x fun hm => hxm (List.mem_cons_of_mem j hm),
                  cleanup_client_get_ne st j _ x hxj]
            · rw [lr2, (cleanup_client_scalars st j _).2.2.2.1]
            · rw [l2, (cleanup_client_scalars st j _).2.2.2.2]
            · intro hi
              exact v2 (cleanup_client_inv st j _ hi)
          · rw [if_neg hw]
            exact ⟨fun x hxm => ((ih st).1 x fun hm => hxm (List.mem_cons_of_mem j hm)),
              (ih st).2.1, (ih st).2.2.1, (ih st).2.2.2⟩
        · rw [if_neg hac]
          exact ⟨fun x hxm => ((ih st).1 x fun hm => hxm (List.mem_cons_of_mem j hm)),
            (ih st).2.1, (ih st).2.2.1, (ih st).2.2.2⟩

theorem send_clients_write_failed (wr : Nat → Nat) (frame : List Nat) (is : List Nat) :
    ∀ (st : TcpState) (i : Nat) (c : TcpClient),
    is.Nodup → i ∈ is →
    st.clients.get? i = some c → c.active = true → c.connected = true →
    (i : Int) ≠ st.last_rx_client_idx → wr i = 0 →
    (send_clients wr frame st is).1.clients.get? i = some (cleaned c) ∧
    SockAction.rst_close i CleanupReason.write_failed ∈
      (send_clients wr frame st is).2.actions := by
  induction is with
  | nil => intro st i c _ hmem; cases hmem
  | cons j rest ih =>
    intro st i c hnd hmem h ha hc hlr hw
    rw [send_clients]
    by_cases hij : j = i
    · subst hij
      rw [if_neg hlr, h]
      dsimp only
      rw [if_pos (by simp [ha, hc]), if_pos hw]
      have hnotin : j ∉ rest := (List.nodup_cons.mp hnd).1
      obtain ⟨g2, _, _, _⟩ := send_clients_facts wr frame rest
        (cleanup_client st j CleanupReason.write_failed).1
      constructor
      · rw [g2 j hnotin]
        exact cleanup_client_get_self st j _ c h ha
      · rw [cleanup_client_eq st j _ c h ha]
        exact List.mem_append.mpr (Or.inl (List.mem_singleton.mpr rfl))
    · have hmem' : i ∈ rest := by
        cases hmem with
        | head => exact absurd rfl hij
        | tail _ hm => exact hm
      have hnd' := (List.nodup_cons.mp hnd).2
      by_cases hlrj : (j : Int) = st.last_rx_client_idx
      · rw [if_pos hlrj]
        exact ih st i c hnd' hmem' h ha hc hlr hw
      · rw [if_neg hlrj]
        cases hx : st.clients.get? j
        · exact ih st i c hnd' hmem' h ha hc hlr hw
        · rename_i cj
          dsimp only
          by_cases hac : (cj.active && cj.connected) = true
          · rw [if_pos hac]
            by_cases hwj : wr j = 0
            · rw [if_pos hwj]
              have hji : i ≠ j := fun he => hij he.symm
              have h' : (cleanup_client st j CleanupReason.write_failed).1.clients.get? i =
                  some c := by
                rw [cleanup_client_get_ne st j _ i hji]
                exact h
              have hlr' : (i : Int) ≠
                  (cleanup_client st j CleanupReason.write_failed).1.last_rx_client_idx := by
                rw [(cleanup_client_scalars st j _).2.2.2.1]
                exact hlr
              obtain ⟨hg, hm⟩ := ih (cleanup_client st j CleanupReason.write_failed).1
                i c hnd' hmem' h' ha hc hlr' hw
              exact ⟨hg, List.mem_append.mpr (Or.inr hm)⟩
            · rw [if_neg hwj]
              obtain ⟨hg, hm⟩ := ih st i c hnd' hmem' h ha hc hlr hw
              exact ⟨hg, List.mem_append.mpr (Or.inr hm)⟩
          · rw [if_neg hac]
            exact ih st i c hnd' hmem' h ha hc hlr hw

theorem loop_accept_facts (st : TcpState) (env : LoopEnv) :
    (∀ i c, st.clients.get? i = some c → c.active = true →
      (loop_accept st env).1.clients.get? i = some c) ∧
    (loop_accept st env).1.read_timeout = st.read_timeout ∧
    (clients_inv st → clients_inv (loop_accept st env).1) := by
  unfold loop_accept
  split_ifs
  · exact ⟨fun i c h ha => accept_client_active_slot st env.now i c h ha,
      (accept_client_scalars st env.now).1,
      fun hi => accept_client_inv st env.now hi⟩
  · exact ⟨fun i c h _ => h, rfl, fun hi => hi⟩

theorem loop_accept_num_pos (st : TcpState) (env : LoopEnv) (i : Nat) (c : TcpClient)
    (hinv : clients_inv st) (h : st.clients.get? i = some c) (ha : c.active = true) :
    (loop_accept st env).1.num_clients ≠ 0 := by
  unfold loop_accept
  split_ifs
  · exact accept_client_num_pos st env.now i c hinv h ha
  · have hpos := countP_pos_of_get? (fun x => x.active) st.clients i c h ha
    rw [hinv.2]
    omega

theorem loop_reconnect_noop (st : TcpState) (env : LoopEnv) (h : st.num_clients ≠ 0) :
    loop_reconnect st env = (st, none) := by
  unfold loop_reconnect
  rw [if_neg (fun hcond => h hcond.2.1)]

theorem loop_keepalive_facts (st : TcpState) (env : LoopEnv) :
    (loop_keepalive st env).1.clients = st.clients ∧
    (loop_keepalive st env).1.read_timeout = st.read_timeout ∧
    (loop_keepalive st env).1.num_clients = st.num_clients ∧
    (clients_inv st → clients_inv (loop_keepalive st env).1) := by
  unfold loop_keepalive
  split_ifs
  · exact ⟨rfl, rfl, rfl, fun hi => hi⟩
  · exact ⟨rfl, rfl, rfl, fun hi => hi⟩

theorem loop_body_eq (st : TcpState) (env : LoopEnv) (hs : st.started = true) :
    loop st env =
      ((process_clients env
          (loop_keepalive (loop_reconnect (loop_accept st env).1 env).1 env).1
          (List.range TCP_IF_MAX_CLIENTS)).1,
       ⟨(loop_accept st env).2,
        (loop_reconnect (loop_accept st env).1 env).2,
        (loop_keepalive (loop_reconnect (loop_accept st env).1 env).1 env).2,
        (process_clients env
          (loop_keepalive (loop_reconnect (loop_accept st env).1 env).1 env).1
          (List.range TCP_IF_MAX_CLIENTS)).2.1,
        (process_clients env
          (loop_keepalive (loop_reconnect (loop_accept st env).1 env).1 env).1
          (List.range TCP_IF_MAX_CLIENTS)).2.2⟩) := by
  unfold loop
  rw [if_neg (by simp [hs])]

/-- C6: on every active connection, a read timeout (non-zero timeout, no
bytes received for longer than the timeout) observed by `loop`, and any
write failure observed by `send_outgoing`, tear the connection down in
that same call: the socket is closed by an abrupt reset
(`SO_LINGER {1, 0}`, an RST, never a graceful close), the slot is marked
inactive and its deframe state cleared. -/
theorem teardown_abrupt :
    (∀ (st : TcpState) (env : LoopEnv) (i : Nat) (c : TcpClient),
      clients_inv st → st.started = true →
      st.clients.get? i = some c → c.active = true → c.connected = true →
      0 < st.read_timeout → 0 < c.last_activity →
      st.read_timeout < elapsed32 env.now c.last_activity →
      (loop st env).1.clients.get? i = some (cleaned c) ∧
      SockAction.rst_close i CleanupReason.read_timeout ∈ (loop st env).2.actions) ∧
    (∀ (st : TcpState) (wr : Nat → Nat) (data : List Nat) (i : Nat) (c : TcpClient),
      st.started = true → st.num_clients ≠ 0 →
      st.clients.length = TCP_IF_MAX_CLIENTS →
      st.clients.get? i = some c → c.active = true → c.connected = true →
      (i : Int) ≠ st.last_rx_client_idx → wr i = 0 →
      (send_outgoing st wr data).1.clients.get? i = some (cleaned c) ∧
      SockAction.rst_close i CleanupReason.write_failed ∈
        (send_outgoing st wr data).2.actions) ∧
    (∀ c : TcpClient, (cleaned c).active = false ∧ (cleaned c).connected = false ∧
      (cleaned c).in_frame = false ∧ (cleaned c).escape = false ∧
      (cleaned c).truncated = false ∧ (cleaned c).rxbuf = []) := by
  refine ⟨?_, ?_, fun c => ⟨rfl, rfl, rfl, rfl, rfl, rfl⟩⟩
  · intro st env i c hinv hs h ha hc hrt hla hel
    rw [loop_body_eq st env hs]
    obtain ⟨g1, r1, v1⟩ := loop_accept_facts st env
    have hnum1 : (loop_accept st env).1.num_clients ≠ 0 :=
      loop_accept_num_pos st env i c hinv h ha
    rw [loop_reconnect_noop (loop_accept st env).1 env hnum1]
    dsimp only
    obtain ⟨k3, r3, n3, v3⟩ := loop_keepalive_facts (loop_accept st env).1 env
    have h3 : (loop_keepalive (loop_accept st env).1 env).1.clients.get? i = some c := by
      rw [k3]
      exact g1 i c h ha
    have hinv3 : clients_inv (loop_keepalive (loop_accept st env).1 env).1 :=
      v3 (v1 hinv)
    have hi8 : i < TCP_IF_MAX_CLIENTS := by
      have := (List.get?_eq_some.mp h3).1
      rw [hinv3.1] at this
      exact this
    have hrt3 : 0 < (loop_keepalive (loop_accept st env).1 env).1.read_timeout := by
      rw [r3, r1]; exact hrt
    have hel3 : (loop_keepalive (loop_accept st env).1 env).1.read_timeout <
        elapsed32 env.now c.last_activity := by
      rw [r3, r1]; exact hel
    exact process_clients_timeout env (List.range TCP_IF_MAX_CLIENTS)
      (loop_keepalive (loop_accept st env).1 env).1 i c
      (List.nodup_range TCP_IF_MAX_CLIENTS) (List.mem_range.mpr hi8)
      h3 ha hc hrt3 hla hel3
  · intro st wr data i c hs hnum hlen h ha hc hlr hwr
    unfold send_outgoing
    rw [if_neg (by simp [hs, hnum])]
    have hi8 : i < TCP_IF_MAX_CLIENTS := by
      have := (List.get?_eq_some.mp h).1
      rw [hlen] at this
      exact this
    exact send_clients_write_failed wr (hdlc_frame data) (List.range TCP_IF_MAX_CLIENTS)
      st i c (List.nodup_range TCP_IF_MAX_CLIENTS) (List.mem_range.mpr hi8)
      h ha hc hlr hwr

/-- C5: a zero-length stuffed frame (two consecutive flag bytes) is never
delivered to `handle_incoming`, and while at least one connection is
active, `loop` writes the zero-length keepalive frame (flag, flag) to
every active connected slot whenever `TCP_IF_KEEPALIVE_INTERVAL`
(30000 ms) has elapsed since the last keepalive. -/
theorem keepalive_and_no_empty_delivery :
    (∀ (c : TcpClient) (b : Nat) (d : List Nat),
      (hdlc_deframe c b).2 = some (DeframeEvent.deliver d) → d ≠ []) ∧
    (∀ (st : TcpState) (env : LoopEnv),
      st.started = true →
      ¬(st.mode = TcpIfMode.server ∧ st.server = true ∧ env.server_available = true) →
      0 < st.num_clients →
      TCP_IF_KEEPALIVE_INTERVAL ≤ elapsed32 env.now st.last_keepalive →
      (loop st env).2.keepalives =
        ((List.range TCP_IF_MAX_CLIENTS).filter
          (fun i => slot_active_connected st i)).map
          (fun i => (i, [HDLC_FLAG, HDLC_FLAG]))) := by
  constructor
  · exact fun c b d h => hdlc_deframe_deliver_nonempty c b d h
  · intro st env hs hnoacc hpos hint
    rw [loop_body_eq st env hs]
    have ha : loop_accept st env = (st, none) := by
      unfold loop_accept
      rw [if_neg hnoacc]
    rw [ha]
    dsimp only
    rw [loop_reconnect_noop st env (by omega)]
    dsimp only
    have hk : loop_keepalive st env =
        ({ st with last_keepalive := env.now },
         ((List.range TCP_IF_MAX_CLIENTS).filter
            (fun i => slot_active_connected st i)).map
          (fun i => (i, [HDLC_FLAG, HDLC_FLAG]))) := by
      unfold loop_keepalive
      rw [if_pos ⟨hpos, hint⟩]
    rw [hk]

theorem keepalive_and_no_empty_delivery_witness :
    (([5] : List Nat) ≠ []) ∧
    ((loop
        ⟨.client,
          [new_tcp_client 1, init_client, new_tcp_client 1, init_client,
           init_client, init_client, init_client, init_client],
          2, 0, 0, 10000, 120000, 0, 0, true, -1, [104], false⟩
        ⟨30000, false, true, fun _ => [], false, false, 0, false⟩).2.keepalives =
      ((List.range TCP_IF_MAX_CLIENTS).filter
        (fun i => slot_active_connected
          ⟨.client,
            [new_tcp_client 1, init_client, new_tcp_client 1, init_client,
             init_client, init_client, init_client, init_client],
            2, 0, 0, 10000, 120000, 0, 0, true, -1, [104], false⟩ i)).map
        (fun i => (i, [HDLC_FLAG, HDLC_FLAG]))) :=
  ⟨keepalive_and_no_empty_delivery.1 ⟨false, 0, false, true, false, false, [5]⟩
      HDLC_FLAG [5] (by decide),
   keepalive_and_no_empty_delivery.2
     ⟨.client,
       [new_tcp_client 1, init_client, new_tcp_client 1, init_client,
        init_client, init_client, init_client, init_client],
       2, 0, 0, 10000, 120000, 0, 0, true, -1, [104], false⟩
     ⟨30000, false, true, fun _ => [], false, false, 0, false⟩
     rfl (by decide) (by decide) (by decide)⟩

theorem teardown_abrupt_witness :
    ((loop
        ⟨.client,
          [init_client, ⟨true, 5, true, false, false, false, []⟩, init_client,
           init_client, init_client, init_client, init_client, init_client],
          1, 0, 0, 10000, 120000, 0, 0, true, -1, [104], false⟩
        ⟨120006, false, true, fun _ => [], false, false, 0, false⟩).1.clients.get? 1 =
      some (cleaned ⟨true, 5, true, false, false, false, []⟩) ∧
     SockAction.rst_close 1 CleanupReason.read_timeout ∈
      (loop
        ⟨.client,
          [init_client, ⟨true, 5, true, false, false, false, []⟩, init_client,
           init_client, init_client, init_client, init_client, init_client],
          1, 0, 0, 10000, 120000, 0, 0, true, -1, [104], false⟩
        ⟨120006, false, true, fun _ => [], false, false, 0, false⟩).2.actions) ∧
    ((send_outgoing
        ⟨.client,
          [init_client, ⟨true, 5, true, false, false, false, []⟩, init_client,
           init_client, init_client, init_client, init_client, init_client],
          1, 0, 0, 10000, 120000, 0, 0, true, -1, [104], false⟩
        (fun _ => 0) [7]).1.clients.get? 1 =
      some (cleaned ⟨true, 5, true, false, false, false, []⟩) ∧
     SockAction.rst_close 1 CleanupReason.write_failed ∈
      (send_outgoing
        ⟨.client,
          [init_client, ⟨true, 5, true, false, false, false, []⟩, init_client,
           init_client, init_client, init_client, init_client, init_client],
          1, 0, 0, 10000, 120000, 0, 0, true, -1, [104], false⟩
        (fun _ => 0) [7]).2.actions) ∧
    ((cleaned init_client).active = false ∧ (cleaned init_client).connected = false ∧
     (cleaned init_client).in_frame = false ∧ (cleaned init_client).escape = false ∧
     (cleaned init_client).truncated = false ∧ (cleaned init_client).rxbuf = []) :=
  ⟨teardown_abrupt.1
    ⟨.client,
      [init_client, ⟨true, 5, true, false, false, false, []⟩, init_client,
       init_client, init_client, init_client, init_client, init_client],
      1, 0, 0, 10000, 120000, 0, 0, true, -1, [104], false⟩
    ⟨120006, false, true, fun _ => [], false, false, 0, false⟩ 1
    ⟨true, 5, true, false, false, false, []⟩
    (by constructor <;> decide) rfl (by decide) rfl rfl (by decide) (by decide) (by decide),
   teardown_abrupt.2.1
    ⟨.client,
      [init_client, ⟨true, 5, true, false, false, false, []⟩, init_client,
       init_client, init_client, init_client, init_client, init_client],
      1, 0, 0, 10000, 120000, 0, 0, true, -1, [104], false⟩
    (fun _ => 0) [7] 1 ⟨true, 5, true, false, false, false, []⟩
    rfl (by decide) (by decide) rfl rfl rfl (by decide) rfl,
   teardown_abrupt.2.2 init_client⟩

/-- The write loop of `send_outgoing` attempts exactly one write per slot
that is active, connected, and not the slot the packet came from. -/
theorem send_clients_writes (wr : Nat → Nat) (frame : List Nat) (is : List Nat) :
    ∀ st : TcpState, is.Nodup →
    (send_clients wr frame st is).2.writes =
      (is.filter (fun (i : Nat) => decide (¬((i : Int) = st.last_rx_client_idx)) &&
        slot_active_connected st i)).map (fun (i : Nat) => (i, frame)) := by
  induction is with
  | nil => intro st _; rfl
  | cons j rest ih =>
    intro st hnd
    have hnd' := (List.nodup_cons.mp hnd).2
    have hnotin : j ∉ rest := (List.nodup_cons.mp hnd).1
    rw [send_clients]
    by_cases hlr : (j : Int) = st.last_rx_client_idx
    · rw [if_pos hlr, List.filter_cons_of_neg (by simp [hlr]), ih st hnd']
    · rw [if_neg hlr]
      cases hx : st.clients.get? j
      · rw [List.filter_cons_of_neg
              (by unfold slot_active_connected; rw [hx]; simp), ih st hnd']
      · rename_i c
        dsimp only
        by_cases hac : (c.active && c.connected) = true
        · rw [if_pos hac,
              List.filter_cons_of_pos
                (by unfold slot_active_connected; rw [hx]; simp [hlr, hac]),
              List.map_cons]
          by_cases hw : wr j = 0
          · rw [if_pos hw]
            dsimp only
            rw [ih (cleanup_client st j CleanupReason.write_failed).1 hnd']
            have hcongr : ∀ x ∈ rest,
                (decide (¬(((x : Nat) : Int) =
                    (cleanup_client st j CleanupReason.write_failed).1.last_rx_client_idx)) &&
                  slot_active_connected
                    (cleanup_client st j CleanupReason.write_failed).1 x) =
                (decide (¬(((x : Nat) : Int) = st.last_rx_client_idx)) &&
                  slot_active_connected st x) := by
              intro x hxm
              have hxj : x ≠ j := fun he => hnotin (he ▸ hxm)
              rw [(cleanup_client_scalars st j _).2.2.2.1]
              unfold slot_active_connected
              rw [cleanup_client_get_ne st j _ x hxj]
            rw [List.filter_congr hcongr]
          · rw [if_neg hw]
            dsimp only
            rw [ih st hnd']
        · rw [if_neg hac,
              List.filter_cons_of_neg
                (by unfold slot_active_connected; rw [hx]; simp [hac]),
              ih st hnd']

/-- C3: a frame received and delivered from slot `k` that Transport
synchronously rebroadcasts on the same interface is written by
`send_outgoing` to exactly the slots that are active, connected, and
different from `k` — never back to `k`. -/
theorem echo_suppression (st : TcpState) (k : Nat) (c : TcpClient) (wr : Nat → Nat)
    (hk : st.clients.get? k = some c)
    (hin : c.in_frame = true) (hne : c.rxbuf ≠ []) (htr : c.truncated = false)
    (hst : st.started = true) (hnum : st.num_clients ≠ 0) :
    ∃ out : SendOut,
      (hdlc_deframe_rt (fun s d => send_outgoing s wr d) st k HDLC_FLAG).2 = some out ∧
      out.writes = ((List.range TCP_IF_MAX_CLIENTS).filter
          (fun i => decide (¬(i = k)) && slot_active_connected st i)).map
        (fun i => (i, hdlc_frame c.rxbuf)) ∧
      (∀ e ∈ out.writes, e.1 ≠ k) := by
  unfold hdlc_deframe_rt
  rw [hk]
  dsimp only
  rw [hdlc_deframe_flag_deliver c hin hne htr]
  dsimp only
  have hcongr : ∀ x ∈ List.range TCP_IF_MAX_CLIENTS,
      (decide (¬(((x : Nat) : Int) =
          ({ st with last_rx_client_idx := (k : Int) } : TcpState).last_rx_client_idx)) &&
        slot_active_connected { st with last_rx_client_idx := (k : Int) } x) =
      (decide (¬(x = k)) && slot_active_connected st x) := by
    intro x _
    have h1 : decide (¬((x : Int) = (k : Int))) = decide (¬(x = k)) :=
      decide_eq_decide.mpr (not_congr Int.natCast_inj)
    dsimp only
    rw [h1]
    unfold slot_active_connected
    rfl
  have hwrites : (send_outgoing { st with last_rx_client_idx := (k : Int) }
        wr c.rxbuf).2.writes =
      ((List.range TCP_IF_MAX_CLIENTS).filter
        (fun (i : Nat) => decide (¬(i = k)) && slot_active_connected st i)).map
      (fun (i : Nat) => (i, hdlc_frame c.rxbuf)) := by
    unfold send_outgoing
    rw [if_neg (by simp [hst, hnum])]
    rw [send_clients_writes wr (hdlc_frame c.rxbuf) (List.range TCP_IF_MAX_CLIENTS)
          { st with last_rx_client_idx := (k : Int) }
          (List.nodup_range TCP_IF_MAX_CLIENTS),
        List.filter_congr hcongr]
  refine ⟨_, rfl, hwrites, ?_⟩
  intro e he
  rw [hwrites] at he
  obtain ⟨i, hi, rfl⟩ := List.mem_map.mp he
  have hflt := (List.mem_filter.mp hi).2
  dsimp only
  intro hik
  rw [hik] at hflt
  simp at hflt

theorem echo_suppression_witness :
    ∃ out : SendOut,
      (hdlc_deframe_rt (fun s d => send_outgoing s (fun _ => 10) d)
        ⟨.server,
          [⟨true, 1, true, true, false, false, [9]⟩, new_tcp_client 1, new_tcp_client 1,
           init_client, init_client, init_client, init_client, init_client],
          3, 0, 0, 10000, 120000, 0, 0, true, -1, [], true⟩
        0 HDLC_FLAG).2 = some out ∧
      out.writes = ((List.range TCP_IF_MAX_CLIENTS).filter
          (fun i => decide (¬(i = 0)) && slot_active_connected
            ⟨.server,
              [⟨true, 1, true, true, false, false, [9]⟩, new_tcp_client 1, new_tcp_client 1,
               init_client, init_client, init_client, init_client, init_client],
              3, 0, 0, 10000, 120000, 0, 0, true, -1, [], true⟩ i)).map
        (fun i => (i, hdlc_frame [9])) ∧
      (∀ e ∈ out.writes, e.1 ≠ 0) :=
  echo_suppression
    ⟨.server,
      [⟨true, 1, true, true, false, false, [9]⟩, new_tcp_client 1, new_tcp_client 1,
       init_client, init_client, init_client, init_client, init_client],
      3, 0, 0, 10000, 120000, 0, 0, true, -1, [], true⟩
    0 ⟨true, 1, true, true, false, false, [9]⟩ (fun _ => 10)
    rfl rfl (by decide) rfl rfl (by decide)

theorem connect_client_inv (st : TcpState) (env : ConnectEnv)
    (hinv : clients_inv st) (h0 : st.num_clients = 0) :
    clients_inv (connect_client st env).1 := by
  have hcount : st.clients.countP (fun x => x.active) = 0 := by
    have h2 := hinv.2
    rw [h0] at h2
    omega
  have hc0 : ∃ c0, st.clients.get? 0 = some c0 ∧ c0.active = false := by
    cases hg : st.clients.get? 0 with
    | none =>
      have := List.get?_eq_none.mp hg
      rw [hinv.1] at this
      exact absurd this (by simp [TCP_IF_MAX_CLIENTS])
    | some c0 =>
      refine ⟨c0, rfl, ?_⟩
      cases hca : c0.active
      · rfl
      · exact absurd (countP_pos_of_get? (fun x => x.active) st.clients 0 c0 hg hca)
          (by omega)
  obtain ⟨c0, hg0, ha0⟩ := hc0
  have hsucc : ∀ S : TcpState, S.clients = st.clients → clients_inv (connect_success S env.now) := by
    intro S hSc
    unfold connect_success
    constructor
    · dsimp only
      rw [hSc, List.length_set]
      exact hinv.1
    · dsimp only
      rw [hSc]
      have hbal := countP_set_balance (fun x => x.active) st.clients 0
        (new_tcp_client env.now) c0 hg0
      dsimp only at hbal
      rw [ha0] at hbal
      have : (new_tcp_client env.now).active = true := rfl
      rw [this] at hbal
      simp only [if_pos, if_neg, Bool.false_eq_true, if_false, if_true] at hbal
      omega
  have hfail : ∀ S : TcpState, S.clients = st.clients → S.num_clients = st.num_clients →
      clients_inv (connect_failure S env.now) := by
    intro S hSc hSn
    unfold connect_failure
    exact ⟨by dsimp only; rw [hSc]; exact hinv.1,
           by dsimp only; rw [hSc, hSn]; exact hinv.2⟩
  unfold connect_client
  split_ifs
  · exact hinv
  · exact hsucc st rfl
  · exact hsucc { st with resolved_ip := env.dns_ip } rfl
  · exact hfail { st with resolved_ip := env.dns_ip } rfl rfl
  · exact hfail { st with resolved_ip := 0 } rfl rfl
  · exact hsucc { st with resolved_ip := env.dns_ip } rfl
  · exact hfail { st with resolved_ip := env.dns_ip } rfl rfl
  · exact hfail st rfl rfl

theorem start_inv (st : TcpState) (env : ConnectEnv)
    (hinv : clients_inv st) (h0 : st.num_clients = 0) :
    clients_inv (start st env) := by
  unfold start
  split_ifs
  · exact hinv
  · exact ⟨hinv.1, hinv.2⟩
  · exact connect_client_inv { st with started := true } env ⟨hinv.1, hinv.2⟩ h0

theorem stop_inv (st : TcpState) (hinv : clients_inv st) : clients_inv (stop st) := by
  constructor
  · unfold stop
    dsimp only
    rw [List.length_map]
    exact hinv.1
  · unfold stop
    dsimp only
    have : (st.clients.map
        (fun c => if c.active then { c with connected := false, active := false } else c)).countP
        (fun x => x.active) = 0 := by
      rw [List.countP_eq_zero]
      intro a ha
      obtain ⟨c, _, rfl⟩ := List.mem_map.mp ha
      by_cases hca : c.active = true
      · simp [hca]
      · simp only [if_neg hca]
        simpa using hca
    rw [this]
    rfl

theorem send_outgoing_inv (st : TcpState) (wr : Nat → Nat) (data : List Nat)
    (hinv : clients_inv st) : clients_inv (send_outgoing st wr data).1 := by
  unfold send_outgoing
  split_ifs
  · exact hinv
  · exact (send_clients_facts wr (hdlc_frame data) (List.range TCP_IF_MAX_CLIENTS) st).2.2.2
      hinv

theorem loop_reconnect_inv (st : TcpState) (env : LoopEnv) (hinv : clients_inv st) :
    clients_inv (loop_reconnect st env).1 := by
  unfold loop_reconnect
  split_ifs with h1 h2
  · exact connect_client_inv st (loop_connect_env env) hinv h1.2.1
  · exact ⟨hinv.1, hinv.2⟩
  · exact hinv

theorem loop_inv (st : TcpState) (env : LoopEnv) (hinv : clients_inv st) :
    clients_inv (loop st env).1 := by
  by_cases hs : st.started = true
  · rw [loop_body_eq st env hs]
    dsimp only
    exact (process_clients_facts env (List.range TCP_IF_MAX_CLIENTS) _).2.2.2
      ((loop_keepalive_facts _ env).2.2.2
        (loop_reconnect_inv _ env ((loop_accept_facts st env).2.2 hinv)))
  · unfold loop
    rw [if_pos (by simpa using hs)]
    exact hinv

/-- C10: `_num_clients` always equals the number of client slots whose
`active` flag is set and never exceeds `TCP_IF_MAX_CLIENTS` (8); the
invariant is preserved by `start`, `stop`, `loop`, `_accept_client`,
`_connect_client` (which is only invoked with no connection up),
`_cleanup_client` and `send_outgoing`; and a new server-mode connection
arriving when all slots are active is rejected (the new socket stopped)
without modifying any slot or the count. -/
theorem num_clients_invariant :
    (∀ st : TcpState, clients_inv st →
      st.num_clients = (st.clients.countP (fun c => c.active) : Int) ∧
      st.num_clients ≤ (TCP_IF_MAX_CLIENTS : Int)) ∧
    (∀ (st : TcpState) (env : ConnectEnv), clients_inv st → st.num_clients = 0 →
      clients_inv (start st env)) ∧
    (∀ st : TcpState, clients_inv st → clients_inv (stop st)) ∧
    (∀ (st : TcpState) (env : LoopEnv), clients_inv st → clients_inv (loop st env).1) ∧
    (∀ (st : TcpState) (now : Nat), clients_inv st →
      clients_inv (accept_client st now).1) ∧
    (∀ (st : TcpState) (now : Nat), (∀ c ∈ st.clients, c.active = true) →
      accept_client st now = (st, false)) ∧
    (∀ (st : TcpState) (env : ConnectEnv), clients_inv st → st.num_clients = 0 →
      clients_inv (connect_client st env).1) ∧
    (∀ (st : TcpState) (i : Nat) (r : CleanupReason), clients_inv st →
      clients_inv (cleanup_client st i r).1) ∧
    (∀ (st : TcpState) (wr : Nat → Nat) (data : List Nat), clients_inv st →
      clients_inv (send_outgoing st wr data).1) := by
  refine ⟨?_, start_inv, stop_inv, loop_inv, accept_client_inv,
    accept_client_full, connect_client_inv, cleanup_client_inv, send_outgoing_inv⟩
  intro st hinv
  refine ⟨hinv.2, ?_⟩
  have hle := List.countP_le_length (fun c => c.active) (l := st.clients)
  rw [hinv.1] at hle
  rw [hinv.2]
  omega

theorem num_clients_invariant_witness :
    (((⟨.server,
        [new_tcp_client 1, init_client, init_client, init_client,
         init_client, init_client, init_client, init_client],
        1, 0, 0, 10000, 120000, 0, 0, true, -1, [], true⟩ : TcpState).num_clients =
      (((⟨.server,
        [new_tcp_client 1, init_client, init_client, init_client,
         init_client, init_client, init_client, init_client],
        1, 0, 0, 10000, 120000, 0, 0, true, -1, [], true⟩ : TcpState).clients.countP
          (fun c => c.active) : Nat) : Int)) ∧
      (⟨.server,
        [new_tcp_client 1, init_client, init_client, init_client,
         init_client, init_client, init_client, init_client],
        1, 0, 0, 10000, 120000, 0, 0, true, -1, [], true⟩ : TcpState).num_clients ≤
        (TCP_IF_MAX_CLIENTS : Int)) ∧
    clients_inv (accept_client
      ⟨.server,
        [new_tcp_client 1, init_client, init_client, init_client,
         init_client, init_client, init_client, init_client],
        1, 0, 0, 10000, 120000, 0, 0, true, -1, [], true⟩ 7).1 ∧
    (accept_client
      ⟨.server, List.replicate 8 (new_tcp_client 1),
        8, 0, 0, 10000, 120000, 0, 0, true, -1, [], true⟩ 7 =
      (⟨.server, List.replicate 8 (new_tcp_client 1),
        8, 0, 0, 10000, 120000, 0, 0, true, -1, [], true⟩, false)) ∧
    clients_inv (cleanup_client
      ⟨.server,
        [new_tcp_client 1, init_client, init_client, init_client,
         init_client, init_client, init_client, init_client],
        1, 0, 0, 10000, 120000, 0, 0, true, -1, [], true⟩ 0 CleanupReason.disconnected).1 :=
  ⟨num_clients_invariant.1 _ (by constructor <;> decide),
   num_clients_invariant.2.2.2.2.1 _ 7 (by constructor <;> decide),
   num_clients_invariant.2.2.2.2.2.1 _ 7 (by decide),
   num_clients_invariant.2.2.2.2.2.2.2.1 _ 0 CleanupReason.disconnected
     (by constructor <;> decide)⟩

end RNodeTHV4
